import Mathlib

/-!
A shallow embedding of the `lox-interpreter-rs` tree-walking interpreter
(source files `src/token.rs`, `src/syntax.rs`, `src/scanner.rs`,
`src/parser.rs`, `src/resolver.rs`, `src/environment.rs`, `src/object.rs`,
`src/function.rs`, `src/class.rs`, `src/interpreter.rs`, `src/main.rs`).

Modelling conventions, used throughout:

* Rust `f64` number payloads are modelled by `Rat`. No property proved below
  depends on IEEE-754 rounding, infinities or NaN; the literals involved are
  small integers, on which the two agree.
* `Rc<RefCell<...>>` shared mutable cells (environments, classes, instances)
  are modelled by arenas held in the interpreter state; a cell is an index
  into its arena, and cloning an `Rc` is copying the index.
* `HashMap` is modelled by an association list with insert-replaces-existing
  semantics (`ainsert`/`alookup`); the source never iterates over a map in an
  order-sensitive way.
* A Rust panic (`expect`, `unimplemented!`, `unreachable!`) is modelled by the
  error value `Err.panicked msg` carrying the panic message; a panic is
  propagated without running any cleanup code, mirroring unwinding.
* Recursion that Rust runs on the heap/stack is given explicit `fuel`;
  running out of fuel yields the artificial `Err.fuel`, which no theorem
  below ever reaches (fuel is chosen large enough on every concrete input).
* Diagnostics printed to stderr (`error.rs::report`) are accumulated in a
  `diags` field of the component state instead of being printed.
* Byte positions: `scanner.rs` mixes byte indices (`source.len()`,
  `source.get(a..b)`) with char indices (`chars().nth`). The embedding uses
  char indices throughout; on the ASCII inputs used in every theorem below
  the two coincide.
-/

namespace LoxModel

/-- `token.rs::TokenType`. Variant names carry a `Kw`/`Lit` suffix where the
Rust name collides with a Lean keyword. The `String`/`Number` literal
payloads are carried exactly as in the source. -/
inductive TokenType where
  | leftParen | rightParen | leftBrace | rightBrace
  | comma | dot | minus | plus | semicolon | slash | star
  | bang | bangEqual | equal | equalEqual
  | greater | greaterEqual | less | lessEqual
  | identifier
  | stringLit (literal : String)
  | numberLit (literal : Rat)
  | andKw | classKw | elseKw | falseKw | funKw | forKw | ifKw | nilKw
  | orKw | printKw | returnKw | superKw | thisKw | trueKw | varKw | whileKw
  | eof
deriving DecidableEq, Repr

/-- `token.rs::Token`: kind, raw lexeme, source line. Structural equality
models the `PartialEq`/`Hash` the side table requires of `Token` (the spec:
the side table keys a use-site by lexeme + line + kind). -/
structure Token where
  token_type : TokenType
  lexeme : String
  line : Int
deriving DecidableEq, Repr

/-- `syntax.rs::LiteralValue`. -/
inductive LiteralValue where
  | boolean (b : Bool)
  | number (n : Rat)
  | null
  | stringL (s : String)
deriving DecidableEq, Repr

/-- `syntax.rs::Expr`. `varE`/`thisE`/`superE` rename Rust variants that
collide with Lean keywords. -/
inductive Expr where
  | binary (left : Expr) (operator : Token) (right : Expr)
  | call (callee : Expr) (paren : Token) (arguments : List Expr)
  | get (object : Expr) (name : Token)
  | logical (left : Expr) (operator : Token) (right : Expr)
  | set (object : Expr) (name : Token) (value : Expr)
  | superE (keyword : Token) (method : Token)
  | thisE (keyword : Token)
  | unary (operator : Token) (right : Expr)
  | grouping (expression : Expr)
  | literal (value : LiteralValue)
  | varE (name : Token)
  | assign (name : Token) (value : Expr)
deriving Repr

/-- `syntax.rs::Stmt`. `Stmt::Null` is the parser's panic-recovery
placeholder ("placeholder until statement handling is figured out after
synchronize()"). -/
inductive Stmt where
  | block (statements : List Stmt)
  | classS (name : Token) (superclass : Option Expr) (methods : List Stmt)
  | expression (expression : Expr)
  | function (name : Token) (params : List Token) (body : List Stmt)
  | returnS (keyword : Token) (value : Option Expr)
  | print (expression : Expr)
  | varS (name : Token) (initializer : Option Expr)
  | ifS (condition : Expr) (then_branch : Stmt) (else_branch : Option Stmt)
  | whileS (condition : Expr) (body : Stmt)
  | null
deriving Repr

/-- `function.rs::Function`. The `Native` variant's host closure is the one
native, `clock`; its wall-clock result is irrelevant to every property below,
so the body is elided and a call to it is modelled as returning `Number 0`.
NOTE (recorded for claim C4): the source `User` variant has exactly the four
fields below — there is no `is_initializer` field, although
`interpreter.rs::visit_class_stmt` tries to construct one. -/
inductive Function where
  | native (arity : Nat)
  | user (name : Token) (params : List Token) (body : List Stmt) (closure : Nat)
deriving Repr

/-- `object.rs::Object`. `Class`/`Instance` carry arena indices in place of
`Rc<RefCell<...>>`. -/
inductive Object where
  | boolean (b : Bool)
  | callable (f : Function)
  | classO (id : Nat)
  | null
  | number (n : Rat)
  | stringO (s : String)
  | instance (id : Nat)
deriving Repr

/-- `object.rs::Object::equals`. The catch-all arm returns `false` (the
source comment: should work for all). -/
def Object.equalsFn : Object → Object → Bool
  | .null, .null => true
  | _, .null => false
  | .null, _ => false
  | .boolean l, .boolean r => l = r
  | .number l, .number r => l = r
  | .stringO l, .stringO r => l = r
  | _, _ => false

/-- `error.rs::Error`, with two model-only variants: `panicked` for a Rust
panic (the message is the panic message) and `fuel` for exhausted model fuel
(never reached in the theorems below). `Io` is not modelled (no file system). -/
inductive Err where
  | parse
  | ret (value : Object)
  | runtime (token : Token) (message : String)
  | panicked (message : String)
  | fuel
deriving Repr

/-- A stderr diagnostic as produced by `error.rs::report`: line, the
`where` fragment tag, and the message. `atEnd` corresponds to the
" at end" fragment, `at lexeme` to " at 'lexeme'", `plain` to "". -/
inductive DiagWhere where
  | plain
  | atEnd
  | atLexeme (lexeme : String)
deriving DecidableEq, Repr

/-- One recorded stderr line. -/
structure Diag where
  line : Int
  whereAt : DiagWhere
  message : String
deriving DecidableEq, Repr

/-- Association-list lookup, modelling `HashMap::get`. -/
def alookup [DecidableEq κ] (l : List (κ × α)) (k : κ) : Option α :=
  match l with
  | [] => none
  | (k', v) :: rest => if k' = k then some v else alookup rest k

/-- Association-list insert, modelling `HashMap::insert` (replaces an
existing binding, otherwise appends). -/
def ainsert [DecidableEq κ] (l : List (κ × α)) (k : κ) (v : α) : List (κ × α) :=
  match l with
  | [] => [(k, v)]
  | (k', v') :: rest => if k' = k then (k, v) :: rest else (k', v') :: ainsert rest k v

/-- Association-list membership, modelling `HashMap::contains_key`. -/
def acontains [DecidableEq κ] (l : List (κ × α)) (k : κ) : Bool :=
  (alookup l k).isSome

/-- State-threading computations over component state `σ`: the result is an
`Except Err` paired with the state **after** the computation, which is kept
even on the error path (Rust mutates `self` in place before an early
return). -/
def StE (σ : Type) (α : Type) : Type := σ → Except Err α × σ

instance : Monad (StE σ) where
  pure a := fun s => (.ok a, s)
  bind x f := fun s =>
    match x s with
    | (.ok a, s') => f a s'
    | (.error e, s') => (.error e, s')

/-- Raise an error/panic, keeping the current state. -/
def StE.throw (e : Err) : StE σ α := fun s => (.error e, s)

/-- Read the component state. -/
def StE.get : StE σ σ := fun s => (.ok s, s)

/-- Replace the component state. -/
def StE.set (s : σ) : StE σ Unit := fun _ => (.ok (), s)

/-- Update the component state. -/
def StE.modify (f : σ → σ) : StE σ Unit := fun s => (.ok (), f s)

end LoxModel

namespace LoxModel

/-- `scanner.rs::Scanner` state. `diags` records the stderr lines produced
through `error.rs::error`. -/
structure Scanner where
  source : List Char
  tokens : List Token
  start : Nat
  current : Nat
  line : Int
  diags : List Diag
deriving Repr

/-- `Scanner::new`. -/
def Scanner.new (source : String) : Scanner :=
  { source := source.data, tokens := [], start := 0, current := 0, line := 1, diags := [] }

/-- `error.rs::error(line, message)` = `report(line, "", message)`, recorded
instead of printed. -/
def Scanner.error (line : Int) (message : String) : StE Scanner Unit :=
  StE.modify fun s => { s with diags := s.diags ++ [⟨line, .plain, message⟩] }

/-- `Scanner::is_at_end`: `current >= source.len()` (char count standing in
for the byte count, see the header note). -/
def Scanner.is_at_end (s : Scanner) : Bool :=
  s.source.length ≤ s.current

/-- `Scanner::advance`: step `current`, return the char before it;
`.expect("there is a next char")` panics when the chars are exhausted. -/
def Scanner.advance : StE Scanner Char := fun s =>
  let s := { s with current := s.current + 1 }
  match s.source.get? (s.current - 1) with
  | some c => (.ok c, s)
  | none => (.error (.panicked "there is a next char"), s)

/-- `Scanner::peek`: current char or `'\0'` (`unwrap_or`). -/
def Scanner.peek (s : Scanner) : Char :=
  (s.source.get? s.current).getD '\x00'

/-- `Scanner::peek_next`. -/
def Scanner.peek_next (s : Scanner) : Char :=
  (s.source.get? (s.current + 1)).getD '\x00'

/-- `Scanner::match` (Rust `r#match`): conditionally consume `expected`.
The source `.expect("Unexpected EOF")` cannot fire in the char-indexed
model (it guards the byte/char mismatch) but is kept. -/
def Scanner.matchC (expected : Char) : StE Scanner Bool := fun s =>
  if s.is_at_end then (.ok false, s)
  else
    match s.source.get? s.current with
    | none => (.error (.panicked "Unexpected EOF"), s)
    | some c =>
      if c ≠ expected then (.ok false, s)
      else (.ok true, { s with current := s.current + 1 })

/-- The `source[start..current]` lexeme slice (`source.get(..)` on byte
indices in Rust; char indices here). -/
def Scanner.lexeme (s : Scanner) : String :=
  String.mk ((s.source.drop s.start).take (s.current - s.start))

/-- `Scanner::add_token`. -/
def Scanner.add_token (token_type : TokenType) : StE Scanner Unit :=
  StE.modify fun s =>
    { s with tokens := s.tokens ++ [⟨token_type, s.lexeme, s.line⟩] }

/-- Fold a digit string into a `Nat`. -/
def digitsToNat (cs : List Char) : Nat :=
  cs.foldl (fun a c => a * 10 + (c.toNat - 48)) 0

/-- The numeric literal parse (`str::parse::<f64>` on the scanned shape
`digits ('.' digits)?`), exact over `Rat`. -/
def parseDecimal (cs : List Char) : Rat :=
  let intPart := cs.takeWhile (· ≠ '.')
  match cs.dropWhile (· ≠ '.') with
  | [] => (digitsToNat intPart : Rat)
  | _ :: frac => (digitsToNat intPart : Rat) + (digitsToNat frac : Rat) / ((10 : Rat) ^ frac.length)

/-- `build.rs`: the compile-time keyword table. -/
def KEYWORDS : List (String × TokenType) :=
  [("and", .andKw), ("class", .classKw), ("else", .elseKw), ("false", .falseKw),
   ("for", .forKw), ("fun", .funKw), ("if", .ifKw), ("nil", .nilKw),
   ("or", .orKw), ("print", .printKw), ("return", .returnKw), ("super", .superKw),
   ("this", .thisKw), ("true", .trueKw), ("var", .varKw), ("while", .whileKw)]

/-- The body of `Scanner::string`'s while loop, fuelled. -/
def Scanner.stringLoop : Nat → StE Scanner Unit
  | 0 => StE.throw .fuel
  | fuel + 1 => do
    let s ← StE.get
    if s.peek ≠ '"' ∧ ¬ s.is_at_end then do
      if s.peek = '\n' then StE.modify fun s => { s with line := s.line + 1 }
      _ ← Scanner.advance
      Scanner.stringLoop fuel
    else pure ()

/-- `Scanner::string`. NOTE (claim C6): after reporting "Unterminated
string" the source does **not** return; it still runs `self.advance()` for
the closing quote, which panics at end of input. -/
def Scanner.string (fuel : Nat) : StE Scanner Unit := do
  Scanner.stringLoop fuel
  let s ← StE.get
  if s.is_at_end then Scanner.error s.line "Unterminated string"
  -- the closing "
  _ ← Scanner.advance
  -- trim
  let s ← StE.get
  let literal := String.mk (((s.source.drop (s.start + 1))).take (s.current - 1 - (s.start + 1)))
  Scanner.add_token (.stringLit literal)

/-- `while self.peek().is_digit(10) { self.advance(); }`, fuelled. -/
def Scanner.digitLoop : Nat → StE Scanner Unit
  | 0 => StE.throw .fuel
  | fuel + 1 => do
    let s ← StE.get
    if s.peek.isDigit then do
      _ ← Scanner.advance
      Scanner.digitLoop fuel
    else pure ()

/-- `Scanner::number`. -/
def Scanner.number (fuel : Nat) : StE Scanner Unit := do
  Scanner.digitLoop fuel
  let s ← StE.get
  -- consume the .
  if s.peek = '.' ∧ s.peek_next.isDigit then do
    _ ← Scanner.advance
    Scanner.digitLoop fuel
  let s ← StE.get
  let literal := parseDecimal ((s.source.drop s.start).take (s.current - s.start))
  Scanner.add_token (.numberLit literal)

/-- `while self.peek().is_alphanumeric() || self.peek() == '_'`, fuelled. -/
def Scanner.identLoop : Nat → StE Scanner Unit
  | 0 => StE.throw .fuel
  | fuel + 1 => do
    let s ← StE.get
    if s.peek.isAlphanum ∨ s.peek = '_' then do
      _ ← Scanner.advance
      Scanner.identLoop fuel
    else pure ()

/-- `Scanner::identifier`: scan the rest of the word, then the keyword-table
lookup decides the token kind. -/
def Scanner.identifier (fuel : Nat) : StE Scanner Unit := do
  Scanner.identLoop fuel
  let s ← StE.get
  let text := s.lexeme
  let tpe := (alookup KEYWORDS text).getD .identifier
  Scanner.add_token tpe

/-- The line-comment loop of `Scanner::scan_token`'s `'/'` arm, fuelled. -/
def Scanner.commentLoop : Nat → StE Scanner Unit
  | 0 => StE.throw .fuel
  | fuel + 1 => do
    let s ← StE.get
    if s.peek ≠ '\n' ∧ ¬ s.is_at_end then do
      _ ← Scanner.advance
      Scanner.commentLoop fuel
    else pure ()

/-- `Scanner::scan_token`. -/
def Scanner.scan_token (fuel : Nat) : StE Scanner Unit := do
  let c ← Scanner.advance
  match c with
  | '(' => Scanner.add_token .leftParen
  | ')' => Scanner.add_token .rightParen
  | '{' => Scanner.add_token .leftBrace
  | '}' => Scanner.add_token .rightBrace
  | ',' => Scanner.add_token .comma
  | '.' => Scanner.add_token .dot
  | '-' => Scanner.add_token .minus
  | '+' => Scanner.add_token .plus
  | ';' => Scanner.add_token .semicolon
  | '*' => Scanner.add_token .star
  | '!' => do
    let m ← Scanner.matchC '='
    if m then Scanner.add_token .bangEqual else Scanner.add_token .bang
  | '=' => do
    let m ← Scanner.matchC '='
    if m then Scanner.add_token .equalEqual else Scanner.add_token .equal
  | '<' => do
    let m ← Scanner.matchC '='
    if m then Scanner.add_token .lessEqual else Scanner.add_token .less
  | '>' => do
    let m ← Scanner.matchC '='
    if m then Scanner.add_token .greaterEqual else Scanner.add_token .greater
  | '/' => do
    let m ← Scanner.matchC '/'
    if m then Scanner.commentLoop fuel else Scanner.add_token .slash
  | ' ' => pure ()
  | '\t' => pure ()
  | '\r' => pure ()
  | '\n' => StE.modify fun s => { s with line := s.line + 1 }
  | '"' => Scanner.string fuel
  | c =>
    if c.isDigit then Scanner.number fuel
    else if c.isAlpha ∨ c = '_' then Scanner.identifier fuel
    else do
      let s ← StE.get
      Scanner.error s.line "Unexpected character."

/-- The `while !self.is_at_end()` loop of `Scanner::scan_tokens`, fuelled. -/
def Scanner.scanLoop : Nat → StE Scanner Unit
  | 0 => StE.throw .fuel
  | fuel + 1 => do
    let s ← StE.get
    if ¬ s.is_at_end then do
      StE.set { s with start := s.current }
      Scanner.scan_token fuel
      Scanner.scanLoop fuel
    else pure ()

/-- `Scanner::scan_tokens`: scan everything, then push the `Eof` token and
return the token list. -/
def Scanner.scan_tokens (fuel : Nat) : StE Scanner (List Token) := do
  Scanner.scanLoop fuel
  let s ← StE.get
  StE.set { s with tokens := s.tokens ++ [⟨.eof, "", s.line⟩] }
  let s ← StE.get
  pure s.tokens

end LoxModel

namespace LoxModel

/-- `parser.rs::Parser` state. `diags` records the stderr lines produced
through `error.rs::parser_error`. -/
structure Parser where
  tokens : List Token
  current : Nat
  diags : List Diag
deriving Repr

/-- The parser computations. -/
abbrev PM (α : Type) : Type := StE Parser α

/-- `Parser::new`. -/
def Parser.new (tokens : List Token) : Parser :=
  { tokens := tokens, current := 0, diags := [] }

/-- `Parser::peek`; `.expect("Peek into end of token stream.")`. -/
def Parser.peek : PM Token := fun s =>
  match s.tokens.get? s.current with
  | some t => (.ok t, s)
  | none => (.error (.panicked "Peek into end of token stream."), s)

/-- `Parser::previous`; the `current - 1` underflow at `current = 0` and the
out-of-range index both panic (`.expect("Previous was empty.")`). -/
def Parser.previous : PM Token := fun s =>
  if s.current = 0 then (.error (.panicked "Previous was empty."), s)
  else
    match s.tokens.get? (s.current - 1) with
    | some t => (.ok t, s)
    | none => (.error (.panicked "Previous was empty."), s)

/-- `Parser::is_at_end`. -/
def Parser.is_at_end : PM Bool := do
  let t ← Parser.peek
  pure (t.token_type = .eof)

/-- `Parser::advance`. -/
def Parser.advance : PM Token := do
  let e ← Parser.is_at_end
  if ¬ e then StE.modify fun s => { s with current := s.current + 1 }
  Parser.previous

/-- `Parser::check`: never consumes. -/
def Parser.check (token_type : TokenType) : PM Bool := do
  let e ← Parser.is_at_end
  if e then pure false
  else do
    let t ← Parser.peek
    pure (t.token_type = token_type)

/-- `error.rs::parser_error` (recorded instead of printed). -/
def Parser.report (token : Token) (msg : String) : PM Unit :=
  StE.modify fun s =>
    if token.token_type = .eof then
      { s with diags := s.diags ++ [⟨token.line, .atEnd, msg⟩] }
    else
      { s with diags := s.diags ++ [⟨token.line, .atLexeme token.lexeme, msg⟩] }

/-- `Parser::error`: report, then produce `Error::Parse` for the caller to
return. -/
def Parser.errorThrow (token : Token) (msg : String) : PM α := do
  Parser.report token msg
  StE.throw .parse

/-- `Parser::consume`. -/
def Parser.consume (token_type : TokenType) (msg : String) : PM Token := do
  let c ← Parser.check token_type
  if c then Parser.advance
  else do
    let t ← Parser.peek
    Parser.errorThrow t msg

/-- The `matches!` macro of `parser.rs`: `check` each kind in turn; on the
first hit `advance` once and yield `true`. -/
def Parser.matches (types : List TokenType) : PM Bool := do
  let hit ← types.foldlM (fun acc tt => do
    if acc then pure true
    else Parser.check tt) false
  if hit then do
    _ ← Parser.advance
    pure true
  else pure false

mutual

/-- `Parser::parse`: `while !is_at_end { statements.push(declaration()?) }`. -/
def Parser.parse : Nat → PM (List Stmt)
  | 0 => StE.throw .fuel
  | fuel + 1 => do
    let e ← Parser.is_at_end
    if e then pure []
    else do
      let st ← Parser.declaration fuel
      let rest ← Parser.parse fuel
      pure (st :: rest)

/-- `Parser::declaration`, including the recovery arm: an `Error::Parse`
from the chosen production is caught, `synchronize` runs, and the no-op
placeholder `Stmt::Null` is returned in its place. -/
def Parser.declaration : Nat → PM Stmt
  | 0 => StE.throw .fuel
  | fuel + 1 => fun s =>
    let body : PM Stmt := do
      let mv ← Parser.matches [.varKw]
      if mv then Parser.var_declaration fuel
      else do
        let mc ← Parser.matches [.classKw]
        if mc then Parser.class_declaration fuel
        else do
          let mf ← Parser.matches [.funKw]
          if mf then Parser.functionRule fuel "function"
          else Parser.statement fuel
    match body s with
    | (.error .parse, s') =>
      (do
        Parser.synchronize fuel
        pure Stmt.null) s'
    | other => other

/-- `Parser::class_declaration`. -/
def Parser.class_declaration : Nat → PM Stmt
  | 0 => StE.throw .fuel
  | fuel + 1 => do
    let name ← Parser.consume .identifier "Expect class name."
    let ml ← Parser.matches [.less]
    let superclass : Option Token ← do
      if ml then do
        _ ← Parser.consume .identifier "Expect superclass name."
        let p ← Parser.previous
        pure (some p)
      else pure none
    _ ← Parser.consume .leftBrace "Expect '\x7b' before class body."
    let methods ← Parser.classBodyLoop fuel
    _ ← Parser.consume .rightBrace "Expect '\x7d' after class body."
    pure (Stmt.classS name (superclass.map fun n => Expr.varE n) methods)

/-- The method loop of `class_declaration`:
`while !check(RightBrace) && !is_at_end`. -/
def Parser.classBodyLoop : Nat → PM (List Stmt)
  | 0 => StE.throw .fuel
  | fuel + 1 => do
    let c ← Parser.check .rightBrace
    let e ← Parser.is_at_end
    if ¬ c ∧ ¬ e then do
      let m ← Parser.functionRule fuel "method"
      let rest ← Parser.classBodyLoop fuel
      pure (m :: rest)
    else pure []

/-- `Parser::function` (named `functionRule` here to keep the `Stmt`
constructor free): name, parameter list (soft 255 cap: reported, not
thrown), body. -/
def Parser.functionRule : Nat → String → PM Stmt
  | 0, _ => StE.throw .fuel
  | fuel + 1, kind => do
    let name ← Parser.consume .identifier ("Expect " ++ kind ++ " name.")
    _ ← Parser.consume .leftParen ("Expect '(' after " ++ kind ++ " name.")
    let c ← Parser.check .rightParen
    let params : List Token ← if ¬ c then Parser.paramsLoop fuel [] else pure []
    _ ← Parser.consume .rightParen "Expect ')' after parameters."
    _ ← Parser.consume .leftBrace ("Expected '\x7b' before " ++ kind ++ " body")
    let body ← Parser.block fuel
    pure (Stmt.function name params body)

/-- The parameter loop of `Parser::function`. -/
def Parser.paramsLoop : Nat → List Token → PM (List Token)
  | 0, _ => StE.throw .fuel
  | fuel + 1, acc => do
    if 255 ≤ acc.length then do
      let t ← Parser.peek
      -- No error returned
      Parser.report t "Can't have more than 255 parameters."
    let p ← Parser.consume .identifier "Expect parameter name."
    let mc ← Parser.matches [.comma]
    if mc then Parser.paramsLoop fuel (acc ++ [p])
    else pure (acc ++ [p])

/-- `Parser::statement`. -/
def Parser.statement : Nat → PM Stmt
  | 0 => StE.throw .fuel
  | fuel + 1 => do
    let m ← Parser.matches [.forKw]
    if m then Parser.for_statement fuel
    else do
      let m ← Parser.matches [.ifKw]
      if m then Parser.if_statement fuel
      else do
        let m ← Parser.matches [.printKw]
        if m then Parser.print_statement fuel
        else do
          let m ← Parser.matches [.returnKw]
          if m then Parser.return_statement fuel
          else do
            let m ← Parser.matches [.whileKw]
            if m then Parser.while_statement fuel
            else do
              let m ← Parser.matches [.leftBrace]
              if m then do
                let stmts ← Parser.block fuel
                pure (Stmt.block stmts)
              else Parser.expression_statement fuel

/-- `Parser::return_statement`. -/
def Parser.return_statement : Nat → PM Stmt
  | 0 => StE.throw .fuel
  | fuel + 1 => do
    let keyword ← Parser.previous
    let c ← Parser.check .semicolon
    let value : Option Expr ← if ¬ c then do
        let v ← Parser.expression fuel
        pure (some v)
      else pure none
    _ ← Parser.consume .semicolon "Expect ';' after return value."
    pure (Stmt.returnS keyword value)

/-- `Parser::if_statement`. -/
def Parser.if_statement : Nat → PM Stmt
  | 0 => StE.throw .fuel
  | fuel + 1 => do
    _ ← Parser.consume .leftParen "Expect '(' after 'if'."
    let condition ← Parser.expression fuel
    _ ← Parser.consume .rightParen "Expect ')' after if condition."
    let then_branch ← Parser.statement fuel
    let me ← Parser.matches [.elseKw]
    let else_branch : Option Stmt ← if me then do
        let e ← Parser.statement fuel
        pure (some e)
      else pure none
    pure (Stmt.ifS condition then_branch else_branch)

/-- `Parser::block` (the contents; the caller wraps them). -/
def Parser.block : Nat → PM (List Stmt)
  | 0 => StE.throw .fuel
  | fuel + 1 => do
    let c ← Parser.check .rightBrace
    let e ← Parser.is_at_end
    if ¬ c ∧ ¬ e then do
      let st ← Parser.declaration fuel
      let rest ← Parser.block fuel
      pure (st :: rest)
    else do
      _ ← Parser.consume .rightBrace "Expect '\x7d' after block."
      pure []

/-- `Parser::while_statement`. -/
def Parser.while_statement : Nat → PM Stmt
  | 0 => StE.throw .fuel
  | fuel + 1 => do
    _ ← Parser.consume .leftParen "Expect '(' after 'while'."
    let condition ← Parser.expression fuel
    _ ← Parser.consume .rightParen "Expect ')' after condition."
    let body ← Parser.statement fuel
    pure (Stmt.whileS condition body)

/-- `Parser::for_statement`: parse the three clauses and desugar into
`Block(init; While(cond; Block(body; incr)))`. -/
def Parser.for_statement : Nat → PM Stmt
  | 0 => StE.throw .fuel
  | fuel + 1 => do
    _ ← Parser.consume .leftParen "Expected '(' after 'for'."
    let ms ← Parser.matches [.semicolon]
    let initializer : Option Stmt ← do
      if ms then pure none
      else do
        let mv ← Parser.matches [.varKw]
        if mv then do
          let d ← Parser.var_declaration fuel
          pure (some d)
        else do
          let d ← Parser.expression_statement fuel
          pure (some d)
    let cs ← Parser.check .semicolon
    let condition : Option Expr ← if ¬ cs then do
        let c ← Parser.expression fuel
        pure (some c)
      else pure none
    _ ← Parser.consume .semicolon "Expect ';' after loop condition."
    let cp ← Parser.check .rightParen
    let increment : Option Expr ← if ¬ cp then do
        let i ← Parser.expression fuel
        pure (some i)
      else pure none
    _ ← Parser.consume .rightParen "Expect ')' after for clauses."
    let body ← Parser.statement fuel
    let body := match increment with
      | some incr => Stmt.block [body, Stmt.expression incr]
      | none => body
    let body := Stmt.whileS (condition.getD (Expr.literal (.boolean true))) body
    let body := match initializer with
      | some init => Stmt.block [init, body]
      | none => body
    pure body

/-- `Parser::var_declaration`. -/
def Parser.var_declaration : Nat → PM Stmt
  | 0 => StE.throw .fuel
  | fuel + 1 => do
    let name ← Parser.consume .identifier "Expected variable name."
    let me ← Parser.matches [.equal]
    let initializer : Option Expr ← if me then do
        let i ← Parser.expression fuel
        pure (some i)
      else pure none
    _ ← Parser.consume .semicolon "Expected ; after variable declaration."
    pure (Stmt.varS name initializer)

/-- `Parser::expression`. -/
def Parser.expression : Nat → PM Expr
  | 0 => StE.throw .fuel
  | fuel + 1 => Parser.assignment fuel

/-- `Parser::assignment`: parse the left side as an expression, then on `=`
reinterpret it as a target; an invalid target is reported without entering
panic mode (the expression is returned unchanged). -/
def Parser.assignment : Nat → PM Expr
  | 0 => StE.throw .fuel
  | fuel + 1 => do
    let expr ← Parser.logic_or fuel
    let me ← Parser.matches [.equal]
    if me then do
      let value ← Parser.assignment fuel
      match expr with
      | .varE name => pure (Expr.assign name value)
      | .get object name => pure (Expr.set object name value)
      | _ => do
        let equals ← Parser.previous
        Parser.report equals "Invalid assignment target."
        pure expr
    else pure expr

/-- `Parser::logic_or`: `logic_and ( Or logic_and )*`. -/
def Parser.logic_or : Nat → PM Expr
  | 0 => StE.throw .fuel
  | fuel + 1 => do
    let expr ← Parser.logic_and fuel
    Parser.logicOrLoop fuel expr

/-- The `while matches!(self, TokenType::Or)` loop of `logic_or`. -/
def Parser.logicOrLoop : Nat → Expr → PM Expr
  | 0, _ => StE.throw .fuel
  | fuel + 1, expr => do
    let m ← Parser.matches [.orKw]
    if m then do
      let operator ← Parser.previous
      let right ← Parser.logic_and fuel
      Parser.logicOrLoop fuel (Expr.logical expr operator right)
    else pure expr

/-- `Parser::logic_and`. NOTE (claim C7): the loop below tests
`TokenType::Or`, exactly as the source does (`while matches!(self,
TokenType::Or)` inside `logic_and`), although the grammar comment above it
reads `logic_and → equality ( "and" equality )*`. -/
def Parser.logic_and : Nat → PM Expr
  | 0 => StE.throw .fuel
  | fuel + 1 => do
    let expr ← Parser.equality fuel
    Parser.logicAndLoop fuel expr

/-- The loop of `logic_and` (testing `Or`, see `Parser.logic_and`). -/
def Parser.logicAndLoop : Nat → Expr → PM Expr
  | 0, _ => StE.throw .fuel
  | fuel + 1, expr => do
    let m ← Parser.matches [.orKw]
    if m then do
      let operator ← Parser.previous
      let right ← Parser.equality fuel
      Parser.logicAndLoop fuel (Expr.logical expr operator right)
    else pure expr

/-- `Parser::equality`. -/
def Parser.equality : Nat → PM Expr
  | 0 => StE.throw .fuel
  | fuel + 1 => do
    let expr ← Parser.comparison fuel
    Parser.equalityLoop fuel expr

/-- The loop of `equality`. -/
def Parser.equalityLoop : Nat → Expr → PM Expr
  | 0, _ => StE.throw .fuel
  | fuel + 1, expr => do
    let m ← Parser.matches [.bangEqual, .equalEqual]
    if m then do
      let operator ← Parser.previous
      let right ← Parser.comparison fuel
      Parser.equalityLoop fuel (Expr.binary expr operator right)
    else pure expr

/-- `Parser::comparison`. -/
def Parser.comparison : Nat → PM Expr
  | 0 => StE.throw .fuel
  | fuel + 1 => do
    let expr ← Parser.term fuel
    Parser.comparisonLoop fuel expr

/-- The loop of `comparison`. -/
def Parser.comparisonLoop : Nat → Expr → PM Expr
  | 0, _ => StE.throw .fuel
  | fuel + 1, expr => do
    let m ← Parser.matches [.greaterEqual, .greater, .lessEqual, .less]
    if m then do
      let operator ← Parser.previous
      let right ← Parser.term fuel
      Parser.comparisonLoop fuel (Expr.binary expr operator right)
    else pure expr

/-- `Parser::term`. -/
def Parser.term : Nat → PM Expr
  | 0 => StE.throw .fuel
  | fuel + 1 => do
    let expr ← Parser.factor fuel
    Parser.termLoop fuel expr

/-- The loop of `term`. -/
def Parser.termLoop : Nat → Expr → PM Expr
  | 0, _ => StE.throw .fuel
  | fuel + 1, expr => do
    let m ← Parser.matches [.minus, .plus]
    if m then do
      let operator ← Parser.previous
      let right ← Parser.factor fuel
      Parser.termLoop fuel (Expr.binary expr operator right)
    else pure expr

/-- `Parser::factor`. The stray `print!("In the while in factor")` debug
line of the source writes to stdout and is not modelled. -/
def Parser.factor : Nat → PM Expr
  | 0 => StE.throw .fuel
  | fuel + 1 => do
    let expr ← Parser.unary fuel
    Parser.factorLoop fuel expr

/-- The loop of `factor`. -/
def Parser.factorLoop : Nat → Expr → PM Expr
  | 0, _ => StE.throw .fuel
  | fuel + 1, expr => do
    let m ← Parser.matches [.slash, .star]
    if m then do
      let operator ← Parser.previous
      let right ← Parser.unary fuel
      Parser.factorLoop fuel (Expr.binary expr operator right)
    else pure expr

/-- `Parser::unary`. -/
def Parser.unary : Nat → PM Expr
  | 0 => StE.throw .fuel
  | fuel + 1 => do
    let m ← Parser.matches [.bang, .minus]
    if m then do
      let operator ← Parser.previous
      let right ← Parser.unary fuel
      pure (Expr.unary operator right)
    else Parser.callRule fuel

/-- `Parser::call` (named `callRule` to keep the `Expr` constructor free). -/
def Parser.callRule : Nat → PM Expr
  | 0 => StE.throw .fuel
  | fuel + 1 => do
    let expr ← Parser.primary fuel
    Parser.callLoop fuel expr

/-- The postfix loop of `call`: `(` → `finish_call`, `.` → property get. -/
def Parser.callLoop : Nat → Expr → PM Expr
  | 0, _ => StE.throw .fuel
  | fuel + 1, expr => do
    let mp ← Parser.matches [.leftParen]
    if mp then do
      let expr ← Parser.finish_call fuel expr
      Parser.callLoop fuel expr
    else do
      let md ← Parser.matches [.dot]
      if md then do
        let name ← Parser.consume .identifier "Expect property after '.'."
        Parser.callLoop fuel (Expr.get expr name)
      else pure expr

/-- `Parser::finish_call` (soft 255-argument cap: reported, not thrown). -/
def Parser.finish_call : Nat → Expr → PM Expr
  | 0, _ => StE.throw .fuel
  | fuel + 1, callee => do
    let c ← Parser.check .rightParen
    let arguments : List Expr ← if ¬ c then Parser.argsLoop fuel [] else pure []
    let paren ← Parser.consume .rightParen "Expect ')' after arguments."
    pure (Expr.call callee paren arguments)

/-- The argument loop of `finish_call`. -/
def Parser.argsLoop : Nat → List Expr → PM (List Expr)
  | 0, _ => StE.throw .fuel
  | fuel + 1, acc => do
    if 255 ≤ acc.length then do
      let t ← Parser.peek
      -- Only reporting error, not throwing.
      Parser.report t "Can't have more than 255 arguments."
    let a ← Parser.expression fuel
    let mc ← Parser.matches [.comma]
    if mc then Parser.argsLoop fuel (acc ++ [a])
    else pure (acc ++ [a])

/-- `Parser::primary`. The match is on `peek` and `advance` runs after the
match. NOTE: the `LeftParen` arm calls `expression` **without consuming the
parenthesis first** (the source has no `advance` there), so a parenthesized
expression re-enters `primary` at the same token; the model renders that
non-termination as `Err.fuel`. No theorem below exercises this arm. -/
def Parser.primary : Nat → PM Expr
  | 0 => StE.throw .fuel
  | fuel + 1 => do
    let t ← Parser.peek
    match t.token_type with
    | .falseKw => do
      _ ← Parser.advance
      pure (Expr.literal (.boolean false))
    | .trueKw => do
      _ ← Parser.advance
      pure (Expr.literal (.boolean true))
    | .nilKw => do
      _ ← Parser.advance
      pure (Expr.literal .null)
    | .numberLit literal => do
      _ ← Parser.advance
      pure (Expr.literal (.number literal))
    | .stringLit literal => do
      _ ← Parser.advance
      pure (Expr.literal (.stringL literal))
    | .leftParen => do
      let expr ← Parser.expression fuel
      _ ← Parser.consume .rightParen "Expect ')' after expression."
      _ ← Parser.advance
      pure (Expr.grouping expr)
    | .identifier => do
      _ ← Parser.advance
      pure (Expr.varE t)
    | .thisKw => do
      _ ← Parser.advance
      pure (Expr.thisE t)
    | .superKw => do
      let keyword ← Parser.advance
      _ ← Parser.consume .dot "Expect '.' after 'super'."
      let method ← Parser.consume .identifier "Expect superclass method name."
      pure (Expr.superE keyword method)
    | _ => Parser.errorThrow t "Expect expression"

/-- `Parser::print_statement`. -/
def Parser.print_statement : Nat → PM Stmt
  | 0 => StE.throw .fuel
  | fuel + 1 => do
    let value ← Parser.expression fuel
    _ ← Parser.consume .semicolon "Expected ; after value."
    pure (Stmt.print value)

/-- `Parser::expression_statement`. -/
def Parser.expression_statement : Nat → PM Stmt
  | 0 => StE.throw .fuel
  | fuel + 1 => do
    let value ← Parser.expression fuel
    _ ← Parser.consume .semicolon "Expected ; after value."
    pure (Stmt.expression value)

/-- `Parser::synchronize`: discard tokens until just past a `;` or in front
of a statement keyword. -/
def Parser.synchronize : Nat → PM Unit
  | 0 => StE.throw .fuel
  | fuel + 1 => do
    _ ← Parser.advance
    Parser.synchronizeLoop fuel

/-- The loop of `synchronize`. -/
def Parser.synchronizeLoop : Nat → PM Unit
  | 0 => StE.throw .fuel
  | fuel + 1 => do
    let e ← Parser.is_at_end
    if ¬ e then do
      let p ← Parser.previous
      if p.token_type = .semicolon then pure ()
      else do
        let t ← Parser.peek
        match t.token_type with
        | .funKw | .varKw | .forKw | .ifKw | .whileKw | .printKw | .returnKw => pure ()
        | _ => do
          _ ← Parser.advance
          Parser.synchronizeLoop fuel
    else pure ()

end

end LoxModel

namespace LoxModel

/-- `resolver.rs::FunctionType`. -/
inductive FunctionType where
  | none | function | initializerT | method
deriving DecidableEq, Repr

/-- `resolver.rs::ClassType`. -/
inductive ClassType where
  | none | classT | subClass
deriving DecidableEq, Repr

/-- `resolver.rs::Resolver` state. `locals` is the interpreter side table the
resolver pokes through `Interpreter::resolve` (`interpreter.rs`), carried
here so the resolver pass can be run as a function; `diags` records stderr. -/
structure Resolver where
  scopes : List (List (String × Bool))
  current_function : FunctionType
  current_class : ClassType
  had_error : Bool
  locals : List (Token × Nat)
  diags : List Diag
deriving Repr

/-- The resolver computations. -/
abbrev RM (α : Type) : Type := StE Resolver α

/-- `Resolver::new` (over an interpreter with an empty side table). -/
def Resolver.new : Resolver :=
  { scopes := [], current_function := .none, current_class := .none,
    had_error := false, locals := [], diags := [] }

/-- `Resolver::error`: `report` (recorded) and set `had_error`. -/
def Resolver.error (token : Token) (message : String) : RM Unit :=
  StE.modify fun r =>
    let d : Diag :=
      if token.token_type = .eof then ⟨token.line, .atEnd, message⟩
      else ⟨token.line, .atLexeme token.lexeme, message⟩
    { r with diags := r.diags ++ [d], had_error := true }

/-- `Resolver::begin_scope`: push an empty scope (the innermost scope is the
last entry, as in the source `Vec`). -/
def Resolver.begin_scope : RM Unit :=
  StE.modify fun r => { r with scopes := r.scopes ++ [[]] }

/-- `Resolver::end_scope`. -/
def Resolver.end_scope : RM Unit :=
  StE.modify fun r => { r with scopes := r.scopes.dropLast }

/-- Replace the innermost scope. -/
def Resolver.setLast (scope : List (String × Bool)) : RM Unit :=
  StE.modify fun r => { r with scopes := r.scopes.dropLast ++ [scope] }

/-- `Resolver::declare`: mark the name not-ready in the innermost scope (a
no-op at global depth), then report a duplicate if it was already there. -/
def Resolver.declare (name : Token) : RM Unit := do
  let r ← StE.get
  match r.scopes.getLast? with
  | some scope => do
    let already_defined := acontains scope name.lexeme
    Resolver.setLast (ainsert scope name.lexeme false)
    if already_defined then
      Resolver.error name "Variable with this name already declared in this scope."
  | none => pure ()

/-- `Resolver::define`: mark the name ready in the innermost scope. -/
def Resolver.define (name : Token) : RM Unit := do
  let r ← StE.get
  match r.scopes.getLast? with
  | some scope => Resolver.setLast (ainsert scope name.lexeme true)
  | none => pure ()

/-- The loop of `Resolver::resolve_local` over `scopes.iter().rev()`:
`i` counts outward from the innermost scope; each hit calls
`Interpreter::resolve(name, i)` = `locals.insert(name, i)`.
NOTE (claims C1/C2): the source loop has **no early return**, so every
enclosing scope containing the name overwrites the entry in turn and the
outermost hit wins. -/
def resolveLocalGo (name : Token) (i : Nat) (ss : List (List (String × Bool)))
    (locals : List (Token × Nat)) : List (Token × Nat) :=
  match ss with
  | [] => locals
  | scope :: rest =>
    let locals := if acontains scope name.lexeme then ainsert locals name i else locals
    resolveLocalGo name (i + 1) rest locals

/-- `Resolver::resolve_local`. -/
def Resolver.resolve_local (name : Token) : RM Unit :=
  StE.modify fun r => { r with locals := resolveLocalGo name 0 r.scopes.reverse r.locals }

mutual

/-- `Resolver::resolve_stmt` = `statement.accept(self)` with the `Result`
discarded. `Stmt::Null` hits the `unimplemented!()` arm of
`syntax.rs::Stmt::accept`. -/
def Resolver.resolve_stmt : Nat → Stmt → RM Unit
  | 0, _ => StE.throw .fuel
  | fuel + 1, stmt =>
    match stmt with
    | .block statements => do
      -- visit_block_stmt
      Resolver.begin_scope
      Resolver.resolve_stmts fuel statements
      Resolver.end_scope
    | .classS name superclass methods => do
      -- visit_class_stmt
      let r ← StE.get
      let enclosing_class := r.current_class
      StE.set { r with current_class := .classT }
      Resolver.declare name
      Resolver.define name
      match superclass with
      | some (.varE superclass_name) => do
        if name.lexeme = superclass_name.lexeme then
          Resolver.error superclass_name "A class cannot inherit from itself."
        StE.modify fun r => { r with current_class := .subClass }
        Resolver.resolve_local superclass_name
        Resolver.begin_scope
        let r ← StE.get
        match r.scopes.getLast? with
        | some scope => Resolver.setLast (ainsert scope "super" true)
        | none => StE.throw (.panicked "Scopes is empty.")
      | _ => pure ()
      Resolver.begin_scope
      let r ← StE.get
      match r.scopes.getLast? with
      | some scope => Resolver.setLast (ainsert scope "this" true)
      | none => StE.throw (.panicked "Scopes is empty.")
      Resolver.resolveMethods fuel methods
      if superclass.isSome then Resolver.end_scope
      Resolver.end_scope
      StE.modify fun r => { r with current_class := enclosing_class }
    | .expression expression => Resolver.resolve_expr fuel expression
    | .ifS condition then_branch else_branch => do
      Resolver.resolve_expr fuel condition
      Resolver.resolve_stmt fuel then_branch
      match else_branch with
      | some else_stmt => Resolver.resolve_stmt fuel else_stmt
      | none => pure ()
    | .print expression => Resolver.resolve_expr fuel expression
    | .returnS keyword value => do
      let r ← StE.get
      if r.current_function = .none then
        Resolver.error keyword "Cannot return from top-level code."
      match value with
      | some return_value => do
        let r ← StE.get
        if r.current_function = .initializerT then
          Resolver.error keyword "Can't return a value from an initializer."
        Resolver.resolve_expr fuel return_value
      | none => pure ()
    | .whileS condition body => do
      Resolver.resolve_expr fuel condition
      Resolver.resolve_stmt fuel body
    | .varS name initializer => do
      Resolver.declare name
      match initializer with
      | some init => Resolver.resolve_expr fuel init
      | none => pure ()
      Resolver.define name
    | .function name params body => do
      -- visit_function_stmt: declare and define eagerly, then resolve the body
      Resolver.declare name
      Resolver.define name
      Resolver.resolve_function fuel params body .function
    | .null => StE.throw (.panicked "not implemented")

/-- `Resolver::resolve_stmts`. -/
def Resolver.resolve_stmts : Nat → List Stmt → RM Unit
  | 0, _ => StE.throw .fuel
  | fuel + 1, stmts =>
    match stmts with
    | [] => pure ()
    | s :: rest => do
      Resolver.resolve_stmt fuel s
      Resolver.resolve_stmts fuel rest

/-- The method loop of `visit_class_stmt`: each `Stmt::Function` is resolved
with kind `Initializer` when named `init`, `Method` otherwise; anything else
is `unreachable!()`. -/
def Resolver.resolveMethods : Nat → List Stmt → RM Unit
  | 0, _ => StE.throw .fuel
  | fuel + 1, methods =>
    match methods with
    | [] => pure ()
    | .function name params body :: rest => do
      let declaration :=
        if name.lexeme = "init" then FunctionType.initializerT else FunctionType.method
      Resolver.resolve_function fuel params body declaration
      Resolver.resolveMethods fuel rest
    | _ :: _ => StE.throw (.panicked "internal error: entered unreachable code")

/-- `Resolver::resolve_function`: stash `current_function`, open the
parameter scope, declare+define each parameter, resolve the body, restore. -/
def Resolver.resolve_function : Nat → List Token → List Stmt → FunctionType → RM Unit
  | 0, _, _, _ => StE.throw .fuel
  | fuel + 1, params, body, tpe => do
    let r ← StE.get
    let enclosing_function := r.current_function
    StE.set { r with current_function := tpe }
    Resolver.begin_scope
    Resolver.declareParams params
    Resolver.resolve_stmts fuel body
    Resolver.end_scope
    StE.modify fun r => { r with current_function := enclosing_function }

/-- The parameter loop of `resolve_function`. -/
def Resolver.declareParams : List Token → RM Unit
  | [] => pure ()
  | p :: rest => do
    Resolver.declare p
    Resolver.define p
    Resolver.declareParams rest

/-- `Resolver::resolve_expr` = `expression.accept(self)`. -/
def Resolver.resolve_expr : Nat → Expr → RM Unit
  | 0, _ => StE.throw .fuel
  | fuel + 1, expr =>
    match expr with
    | .varE name => do
      -- visit_variable_expr: the read-in-own-initializer check, then resolve
      let r ← StE.get
      match r.scopes.getLast? with
      | some scope =>
        match alookup scope name.lexeme with
        | some flag =>
          if flag = false then
            Resolver.error name "Cannot read local variable in its own initializer."
        | none => pure ()
      | none => pure ()
      Resolver.resolve_local name
    | .assign name value => do
      Resolver.resolve_expr fuel value
      Resolver.resolve_local name
    | .binary left _operator right => do
      Resolver.resolve_expr fuel left
      Resolver.resolve_expr fuel right
    | .get object _name => Resolver.resolve_expr fuel object
    | .set object _name value => do
      Resolver.resolve_expr fuel value
      Resolver.resolve_expr fuel object
    | .superE keyword _method => do
      let r ← StE.get
      match r.current_class with
      | .none => Resolver.error keyword "Cannot use 'super' outside of a class."
      | .classT => Resolver.error keyword "Cannot use 'super' in a class with no superclass."
      | _ => Resolver.resolve_local keyword
    | .thisE keyword => do
      let r ← StE.get
      if r.current_class = .none then
        Resolver.error keyword "Cannot use 'this' outside of a class."
      else
        Resolver.resolve_local keyword
    | .call callee _paren arguments => do
      Resolver.resolve_expr fuel callee
      Resolver.resolveArgs fuel arguments
    | .grouping expression => Resolver.resolve_expr fuel expression
    | .literal _value => pure ()
    | .logical left _operator right => do
      Resolver.resolve_expr fuel left
      Resolver.resolve_expr fuel right
    | .unary _operator right => Resolver.resolve_expr fuel right

/-- The argument loop of `visit_call_expr`. -/
def Resolver.resolveArgs : Nat → List Expr → RM Unit
  | 0, _ => StE.throw .fuel
  | fuel + 1, args =>
    match args with
    | [] => pure ()
    | a :: rest => do
      Resolver.resolve_expr fuel a
      Resolver.resolveArgs fuel rest

end

end LoxModel

namespace LoxModel

/-- `environment.rs::Environment`: one frame. `enclosing` is an arena index
(`Rc<RefCell<Environment>>` in the source). -/
structure Env where
  values : List (String × Object)
  enclosing : Option Nat
deriving Repr

/-- `class.rs::LoxClass`. NOTE (claim C5): the source struct has exactly
these two fields — there is no superclass reference. -/
structure LoxClassD where
  name : String
  methods : List (String × Function)
deriving Repr

/-- `class.rs::LoxInstance`. -/
structure LoxInstanceD where
  class_id : Nat
  fields : List (String × Object)
deriving Repr

/-- `interpreter.rs::Interpreter` together with the arenas standing in for
the `Rc<RefCell<...>>` heap: environments, classes, instances. `output`
records stdout (`print`). -/
structure Interp where
  envs : List Env
  classes : List LoxClassD
  instances : List LoxInstanceD
  globals : Nat
  environment : Nat
  locals : List (Token × Nat)
  output : List String
deriving Repr

/-- The interpreter computations. -/
abbrev IM (α : Type) : Type := StE Interp α

/-- `Interpreter::new`: globals holding the native `clock`, `environment`
starting at `globals`. -/
def Interp.new : Interp :=
  { envs := [⟨[("clock", .callable (.native 0))], none⟩],
    classes := [], instances := [],
    globals := 0, environment := 0, locals := [], output := [] }

/-- Dereference an environment cell. An arena index is always in range
(an `Rc` cannot dangle); the default is unreachable. -/
def Interp.getEnv (st : Interp) (id : Nat) : Env :=
  (st.envs.get? id).getD ⟨[], none⟩

/-- Write back an environment cell. -/
def Interp.setEnv (id : Nat) (e : Env) : IM Unit :=
  StE.modify fun st => { st with envs := st.envs.set id e }

/-- `Rc::new(RefCell::new(Environment::from(enclosing)))`: allocate a fresh
child frame, returning its index. -/
def Interp.newEnvFrom (enclosing : Nat) : IM Nat := fun st =>
  (.ok st.envs.length, { st with envs := st.envs ++ [⟨[], some enclosing⟩] })

/-- `Environment::define` on the frame `id`. -/
def Interp.envDefine (id : Nat) (name : String) (value : Object) : IM Unit := do
  let st ← StE.get
  let e := st.getEnv id
  Interp.setEnv id { e with values := ainsert e.values name value }

/-- `Environment::get`: walk the chain outward; off the end it is the
runtime error `Undefined variable 'X'.`. The fuel bounds the chain length
(callers pass more frames than exist; no chain is cyclic). -/
def Interp.envGet : Nat → Nat → Token → IM Object
  | 0, _, _ => StE.throw .fuel
  | fuel + 1, id, name => do
    let st ← StE.get
    let e := st.getEnv id
    match alookup e.values name.lexeme with
    | some value => pure value
    | none =>
      match e.enclosing with
      | some enclosing => Interp.envGet fuel enclosing name
      | none => StE.throw (.runtime name ("Undefined variable '" ++ name.lexeme ++ "'."))

/-- `Environment::assign`: walk the chain and update the first frame that
already has the name; never creates a binding. -/
def Interp.envAssign : Nat → Nat → Token → Object → IM Unit
  | 0, _, _, _ => StE.throw .fuel
  | fuel + 1, id, name, value => do
    let st ← StE.get
    let e := st.getEnv id
    if acontains e.values name.lexeme then
      Interp.setEnv id { e with values := ainsert e.values name.lexeme value }
    else
      match e.enclosing with
      | some enclosing => Interp.envAssign fuel enclosing name value
      | none => StE.throw (.runtime name ("Undefined variable '" ++ name.lexeme ++ "'."))

/-- The `for i in 1..distance` loop of `Environment::ancestor`, recursing
on the remaining step count `distance - i` (the loop variable `i` is kept
for the panic message). -/
def Interp.ancestorGo (envId : Nat) (i : Nat) : Nat → IM Nat
  | 0 => pure envId
  | remaining + 1 => do
    let st ← StE.get
    match (st.getEnv envId).enclosing with
    | some parent => Interp.ancestorGo parent (i + 1) remaining
    | none => StE.throw (.panicked ("No enclosing environment at " ++ toString i))

/-- `Environment::ancestor`: take `enclosing` once
(`.expect("No enclosing environment at 1")` — the message hard-codes 1),
then the `for i in 1..distance` loop takes `distance - 1` more. -/
def Interp.ancestor (envId distance : Nat) : IM Nat := do
  let st ← StE.get
  match (st.getEnv envId).enclosing with
  | some parent => Interp.ancestorGo parent 1 (distance - 1)
  | none => StE.throw (.panicked "No enclosing environment at 1")

/-- `Environment::get_at`: no walking within the frame; a missing binding is
the `.expect` panic `Undefined variable 'X'` (no trailing period, unlike
`Environment::get`). -/
def Interp.get_at (envId distance : Nat) (name : String) : IM Object := do
  if 0 < distance then do
    let target ← Interp.ancestor envId distance
    let st ← StE.get
    match alookup (st.getEnv target).values name with
    | some value => pure value
    | none => StE.throw (.panicked ("Undefined variable '" ++ name ++ "'"))
  else do
    let st ← StE.get
    match alookup (st.getEnv envId).values name with
    | some value => pure value
    | none => StE.throw (.panicked ("Undefined variable '" ++ name ++ "'"))

/-- `Environment::assign_at`: insert into the target frame unconditionally. -/
def Interp.assign_at (envId distance : Nat) (name : Token) (value : Object) : IM Unit := do
  if 0 < distance then do
    let target ← Interp.ancestor envId distance
    let st ← StE.get
    let e := st.getEnv target
    Interp.setEnv target { e with values := ainsert e.values name.lexeme value }
  else do
    let st ← StE.get
    let e := st.getEnv envId
    Interp.setEnv envId { e with values := ainsert e.values name.lexeme value }

/-- `class.rs::LoxClass::find_method`: `self.methods.get(name)` — own map
only, no superclass delegation (none exists). -/
def LoxClassD.find_method (c : LoxClassD) (name : String) : Option Function :=
  alookup c.methods name

/-- `class.rs::LoxInstance::new`: allocate the instance, return it wrapped
as `Object::Instance`. -/
def LoxInstanceD.new (classId : Nat) : IM Object := fun st =>
  (.ok (.instance st.instances.length),
   { st with instances := st.instances ++ [⟨classId, []⟩] })

/-- `class.rs::LoxInstance::set`: fields are created freely. -/
def LoxInstanceD.set (instId : Nat) (name : Token) (value : Object) : IM Unit :=
  StE.modify fun st =>
    match st.instances.get? instId with
    | some inst =>
      { st with instances :=
          st.instances.set instId { inst with fields := ainsert inst.fields name.lexeme value } }
    | none => st

/-- `function.rs::Function::bind`: a fresh frame under the method's closure
with `this` defined to the instance; a `Native` here is `unreachable!()`. -/
def Function.bindM (f : Function) (inst : Object) : IM Function := do
  match f with
  | .native _ => StE.throw (.panicked "internal error: entered unreachable code")
  | .user name params body closure => do
    let environment ← Interp.newEnvFrom closure
    Interp.envDefine environment "this" inst
    pure (.user name params body environment)

/-- `function.rs::Function::arity`. -/
def Function.arity : Function → Nat
  | .native arity => arity
  | .user _ params _ _ => params.length

/-- `Interpreter::is_truthy`. -/
def is_truthy : Object → Bool
  | .null => false
  | .boolean b => b
  | _ => true

/-- `Interpreter::is_equal` = `Object::equals`. -/
def is_equal (left right : Object) : Bool :=
  Object.equalsFn left right

/-- The `Display` of `Function` (`fmt::Display for Function`). -/
def Function.display : Function → String
  | .native _ => "<native func>"
  | .user name _ _ _ => "<fn " ++ name.lexeme ++ ">"

/-- `f64::to_string` on the number payloads that occur below: integral
values print without a fractional part. -/
def ratDisplay (n : Rat) : String :=
  if n.den = 1 then toString n.num else toString n

/-- `Interpreter::stringify`. -/
def Interp.stringify (st : Interp) (object : Object) : String :=
  match object with
  | .null => "nil"
  | .number n => ratDisplay n
  | .boolean b => if b then "true" else "false"
  | .classO id => ((st.classes.get? id).getD ⟨"", []⟩).name
  | .instance id =>
    ((st.classes.get? ((st.instances.get? id).getD ⟨0, []⟩).class_id).getD ⟨"", []⟩).name
      ++ " instance"
  | .stringO s => s
  | .callable f => f.display

/-- `Interpreter::number_operand_error`. -/
def number_operand_error (operator : Token) : IM Object :=
  StE.throw (.runtime operator "Operand must be a number")

/-- Whether an `Err` models a Rust unwind (panic, or the model's fuel
exhaustion): `execute_block` does not restore the environment slot past an
unwind, every `Result` path does restore it. -/
def Err.isUnwind : Err → Bool
  | .panicked _ => true
  | .fuel => true
  | _ => false

/-- The method map built by `Interpreter::visit_class_stmt`: each
`Stmt::Function` becomes a `Function::User` closing over `closureEnv`;
anything else is `unreachable!()`. (The source here also writes an
`is_initializer: name.lexeme == "init"` field which `function.rs`'s `User`
variant does not have — see claim C4; the model keeps the fields that
exist.) -/
def buildClassMethods (closureEnv : Nat) : List Stmt → List (String × Function) →
    Except Err (List (String × Function))
  | [], acc => .ok acc
  | .function name params body :: rest, acc =>
    buildClassMethods closureEnv rest
      (ainsert acc name.lexeme (.user name params body closureEnv))
  | _ :: _, _ => .error (.panicked "internal error: entered unreachable code")

/-- `Interpreter::look_up_variable`: side table hit → `get_at` from the
current frame; miss → dynamic lookup in globals. -/
def Interp.look_up_variable (name : Token) : IM Object := do
  let st ← StE.get
  match alookup st.locals name with
  | some distance => Interp.get_at st.environment distance name.lexeme
  | none => Interp.envGet (st.envs.length + 1) st.globals name

end LoxModel

namespace LoxModel

/-- `class.rs::LoxInstance::get`: field first, then a method of the
instance's class bound to the instance, else the runtime error
`Undefined property 'X'.`. -/
def LoxInstanceD.get (instId : Nat) (name : Token) (instanceObj : Object) : IM Object := do
  let st ← StE.get
  let inst := (st.instances.get? instId).getD ⟨0, []⟩
  match alookup inst.fields name.lexeme with
  | some field => pure field
  | none =>
    let cls := (st.classes.get? inst.class_id).getD ⟨"", []⟩
    match cls.find_method name.lexeme with
    | some method => do
      let bound ← Function.bindM method instanceObj
      pure (.callable bound)
    | none => StE.throw (.runtime name ("Undefined property '" ++ name.lexeme ++ "'."))

/-- Allocate a class cell, returning its index. -/
def Interp.pushClass (c : LoxClassD) : IM Nat := fun st =>
  (.ok st.classes.length, { st with classes := st.classes ++ [c] })

/-- The parameter-binding loop of `Function::call`
(`params.iter().zip(arguments.iter())`, truncating at the shorter list as
`zip` does). -/
def Interp.defineParams (environment : Nat) : List (Token × Object) → IM Unit
  | [] => pure ()
  | (param, argument) :: rest => do
    Interp.envDefine environment param.lexeme argument
    Interp.defineParams environment rest

/-- The `match interpreter.execute_block(..)` tail of `Function::call`:
`Error::Return` becomes the call result, other errors propagate, falling off
the body yields `Null`. -/
def Interp.catchReturn (x : IM Unit) : IM Object := fun st =>
  match x st with
  | (.error (.ret value), st') => (.ok value, st')
  | (.error other, st') => (.error other, st')
  | (.ok _, st') => (.ok Object.null, st')

mutual

/-- `Interpreter::execute` = `stmt.accept(self)`, the statement visitors of
`interpreter.rs` inlined per arm. `Stmt::Null` hits `unimplemented!()` in
`syntax.rs::Stmt::accept`. -/
def Interp.execute : Nat → Stmt → IM Unit
  | 0, _ => StE.throw .fuel
  | fuel + 1, stmt =>
    match stmt with
    | .expression expression => do
      _ ← Interp.evaluate fuel expression
      pure ()
    | .classS class_name _superclass methods => do
      -- visit_class_stmt. NOTE (claim C5): the source impl takes only the
      -- name and the methods; the superclass the trait hands over is unused
      -- (no runtime superclass exists).
      let st ← StE.get
      Interp.envDefine st.environment class_name.lexeme Object.null
      let st ← StE.get
      match buildClassMethods st.environment methods [] with
      | .error e => StE.throw e
      | .ok class_methods => do
        let classId ← Interp.pushClass ⟨class_name.lexeme, class_methods⟩
        let st ← StE.get
        Interp.envAssign (st.envs.length + 1) st.environment class_name (.classO classId)
    | .function name params body => do
      -- visit_function_stmt: close over the current environment
      let st ← StE.get
      Interp.envDefine st.environment name.lexeme
        (.callable (.user name params body st.environment))
    | .returnS _keyword value => do
      -- visit_return_stmt: Err(Error::Return) unwinds to the call site
      let return_value ← (match value with
        | some v => Interp.evaluate fuel v
        | none => pure Object.null)
      StE.throw (.ret return_value)
    | .ifS condition then_branch else_branch => do
      let condition_val ← Interp.evaluate fuel condition
      if is_truthy condition_val then
        Interp.execute fuel then_branch
      else
        match else_branch with
        | some else_bran => Interp.execute fuel else_bran
        | none => pure ()
    | .whileS condition body => do
      let value ← Interp.evaluate fuel condition
      Interp.whileLoop fuel condition body value
    | .print expression => do
      let value ← Interp.evaluate fuel expression
      StE.modify fun st => { st with output := st.output ++ [st.stringify value] }
    | .varS name initializer => do
      let value ← (match initializer with
        | some i => Interp.evaluate fuel i
        | none => pure Object.null)
      let st ← StE.get
      Interp.envDefine st.environment name.lexeme value
    | .block statements => do
      -- visit_block_stmt: a fresh child of the current environment
      let st ← StE.get
      let child ← Interp.newEnvFrom st.environment
      Interp.execute_block fuel statements child
    | .null => StE.throw (.panicked "not implemented")

/-- The `try_for_each` over a statement list (`Interpreter::interpret` and
the body of `execute_block`). -/
def Interp.executeSeq : Nat → List Stmt → IM Unit
  | 0, _ => StE.throw .fuel
  | fuel + 1, stmts =>
    match stmts with
    | [] => pure ()
    | s :: rest => do
      Interp.execute fuel s
      Interp.executeSeq fuel rest

/-- `Interpreter::execute_block`: swap the current-environment slot for the
supplied child, run the statements, and put the previous value back on the
`Ok` and on every `Err` path (a panic unwinds past the restore). -/
def Interp.execute_block : Nat → List Stmt → Nat → IM Unit
  | 0, _, _ => StE.throw .fuel
  | fuel + 1, statements, environment => fun st =>
    let previous := st.environment
    let st := { st with environment := environment }
    match Interp.executeSeq fuel statements st with
    | (.ok a, st') => (.ok a, { st' with environment := previous })
    | (.error e, st') =>
      if e.isUnwind then (.error e, st')
      else (.error e, { st' with environment := previous })

/-- The `while` loop of `Interpreter::visit_while_stmt`, carrying the last
condition value. -/
def Interp.whileLoop : Nat → Expr → Stmt → Object → IM Unit
  | 0, _, _, _ => StE.throw .fuel
  | fuel + 1, condition, body, value =>
    if is_truthy value then do
      Interp.execute fuel body
      let v ← Interp.evaluate fuel condition
      Interp.whileLoop fuel condition body v
    else pure ()

/-- `Interpreter::visit_logical_expr`: left first; `Or` returns a truthy
left as-is, otherwise (the `And` case by the type test against `Or`) a falsy
left as-is; else the right value, unchanged. -/
def Interp.visit_logical_expr : Nat → Expr → Token → Expr → IM Object
  | 0, _, _, _ => StE.throw .fuel
  | fuel + 1, left, operator, right => do
    let l ← Interp.evaluate fuel left
    if operator.token_type = .orKw then
      if is_truthy l then pure l
      else Interp.evaluate fuel right
    else
      if ¬ is_truthy l then pure l
      else Interp.evaluate fuel right

/-- `Interpreter::visit_set_expr`: evaluate the object; a non-instance is a
runtime error; evaluate the value, store it in the instance's fields, and
return the **instance** (`Object::Instance(Rc::clone(instance))`). -/
def Interp.visit_set_expr : Nat → Expr → Token → Expr → IM Object
  | 0, _, _, _ => StE.throw .fuel
  | fuel + 1, object, property_name, value =>  do
    let objectV ← Interp.evaluate fuel object
    match objectV with
    | .instance instId => do
      let v ← Interp.evaluate fuel value
      LoxInstanceD.set instId property_name v
      pure (Object.instance instId)
    | _ => StE.throw (.runtime property_name "Only instances have fields.")

/-- `Interpreter::evaluate` = `expr.accept(self)`, the expression visitors
inlined per arm. `Expr::Super` has **no** visitor implementation in
`interpreter.rs` (the trait method is missing and the crate does not
compile); the model renders reaching it as an unimplemented panic. -/
def Interp.evaluate : Nat → Expr → IM Object
  | 0, _ => StE.throw .fuel
  | fuel + 1, expr =>
    match expr with
    | .literal value =>
      match value with
      | .boolean b => pure (.boolean b)
      | .null => pure .null
      | .number n => pure (.number n)
      | .stringL s => pure (.stringO s)
    | .grouping expression => Interp.evaluate fuel expression
    | .unary operator right => do
      let r ← Interp.evaluate fuel right
      match operator.token_type with
      | .minus =>
        match r with
        | .number n => pure (.number (-n))
        | _ => number_operand_error operator
      | .bang => pure (.boolean (¬ is_truthy r))
      | _ => StE.throw (.panicked "internal error: entered unreachable code")
    | .call callee paren arguments => do
      let callee_value ← Interp.evaluate fuel callee
      let args ← Interp.evalArgs fuel arguments
      match callee_value with
      | .callable function => do
        let args_size := args.length
        if args_size ≠ function.arity then
          StE.throw (.runtime paren ("Expected " ++ toString function.arity
            ++ " arguments but got " ++ toString args_size ++ "."))
        else
          Function.callM fuel function args
      | .classO classId => do
        -- the call method of a class: instantiate, run init when present
        let args_size := args.length
        let inst ← LoxInstanceD.new classId
        let st ← StE.get
        match ((st.classes.get? classId).getD ⟨"", []⟩).find_method "init" with
        | some initializerF =>
          if args_size ≠ initializerF.arity then
            StE.throw (.runtime paren ("Expected " ++ toString initializerF.arity
              ++ " arguments but got " ++ toString args_size ++ "."))
          else do
            let bound ← Function.bindM initializerF inst
            _ ← Function.callM fuel bound args
            pure inst
        | none => pure inst
      | _ => StE.throw (.runtime paren "Can only call functions and classes.")
    | .get object name => do
      let objectV ← Interp.evaluate fuel object
      match objectV with
      | .instance instId => LoxInstanceD.get instId name objectV
      | _ => StE.throw (.runtime name "Only instances have properties.")
    | .set object name value => Interp.visit_set_expr fuel object name value
    | .thisE keyword => Interp.look_up_variable keyword
    | .binary left operator right => do
      let l ← Interp.evaluate fuel left
      let r ← Interp.evaluate fuel right
      match operator.token_type with
      | .minus =>
        match l, r with
        | .number left_num, .number right_num => pure (.number (left_num - right_num))
        | _, _ => number_operand_error operator
      | .slash =>
        match l, r with
        | .number left_num, .number right_num => pure (.number (left_num / right_num))
        | _, _ => number_operand_error operator
      | .star =>
        match l, r with
        | .number left_num, .number right_num => pure (.number (left_num * right_num))
        | _, _ => number_operand_error operator
      | .plus =>
        match l, r with
        | .number left_num, .number right_num => pure (.number (left_num + right_num))
        | .stringO left_str, .stringO right_str => pure (.stringO (left_str ++ right_str))
        | _, _ => StE.throw (.runtime operator "Operands must be two numbers or two strings")
      | .greaterEqual =>
        match l, r with
        | .number left_num, .number right_num => pure (.boolean (right_num ≤ left_num))
        | _, _ => number_operand_error operator
      | .greater =>
        match l, r with
        | .number left_num, .number right_num => pure (.boolean (right_num < left_num))
        | _, _ => number_operand_error operator
      | .lessEqual =>
        match l, r with
        | .number left_num, .number right_num => pure (.boolean (left_num ≤ right_num))
        | _, _ => number_operand_error operator
      | .less =>
        match l, r with
        | .number left_num, .number right_num => pure (.boolean (left_num < right_num))
        | _, _ => number_operand_error operator
      | .bangEqual => pure (.boolean (¬ is_equal l r))
      | .equalEqual => pure (.boolean (is_equal l r))
      | _ => StE.throw (.panicked "internal error: entered unreachable code")
    | .logical left operator right => Interp.visit_logical_expr fuel left operator right
    | .varE name => Interp.look_up_variable name
    | .assign name value => do
      let v ← Interp.evaluate fuel value
      let st ← StE.get
      match alookup st.locals name with
      | some distance => do
        Interp.assign_at st.environment distance name v
        pure v
      | none => do
        Interp.envAssign (st.envs.length + 1) st.globals name v
        pure v
    | .superE _keyword _method =>
      StE.throw (.panicked "not implemented: visit_super_expr")

/-- The argument loop of `visit_call_expr` (left-to-right, first error
wins, as the `collect::<Result<Vec<_>, _>>` does). -/
def Interp.evalArgs : Nat → List Expr → IM (List Object)
  | 0, _ => StE.throw .fuel
  | fuel + 1, args =>
    match args with
    | [] => pure []
    | a :: rest => do
      let v ← Interp.evaluate fuel a
      let vs ← Interp.evalArgs fuel rest
      pure (v :: vs)

/-- `function.rs::Function::call`. A native call is the `clock` model (the
host time is irrelevant here, see `Function`); a user call builds the frame
under the closure, binds parameters, runs the body through `execute_block`
and converts an `Error::Return` into the result — there is **no**
initializer exception (claim C4: `User` has no `is_initializer` field). -/
def Function.callM : Nat → Function → List Object → IM Object
  | 0, _, _ => StE.throw .fuel
  | fuel + 1, f, arguments =>
    match f with
    | .native _arity => pure (.number 0)
    | .user _name params body closure => do
      let environment ← Interp.newEnvFrom closure
      Interp.defineParams environment (params.zip arguments)
      Interp.catchReturn (Interp.execute_block fuel body environment)

end

/-- `Interpreter::interpret`. -/
def Interp.interpret (fuel : Nat) (statements : List Stmt) : IM Unit :=
  Interp.executeSeq fuel statements

end LoxModel

namespace LoxModel

/-- The observable outcome of one `Lox::run` (`main.rs`), carrying the
component states for inspection (diagnostics, side table, stdout). -/
inductive RunOutcome where
  | scanPanicked (message : String) (s : Scanner)
  | parseFailed (p : Parser)
  | parsePanicked (message : String) (p : Parser)
  | parseFuel
  | resolvePanicked (message : String) (p : Parser) (r : Resolver)
  | resolveFuel
  | resolveErrored (p : Parser) (r : Resolver)
  | interpreted (result : Except Err Unit) (p : Parser) (r : Resolver) (st : Interp)
deriving Repr

/-- `Lox::run`: scan, parse (`?` — a parse `Err` aborts the run), resolve
(no run when `had_error`), interpret. The interpreter receives the side
table the resolver populated through `Interpreter::resolve`. -/
def loxRun (fuel : Nat) (source : String) : RunOutcome :=
  match Scanner.scan_tokens fuel (Scanner.new source) with
  | (.error e, s) => .scanPanicked (match e with | .panicked m => m | _ => "") s
  | (.ok tokens, _) =>
    match Parser.parse fuel (Parser.new tokens) with
    | (.error .parse, p) => .parseFailed p
    | (.error (.panicked m), p) => .parsePanicked m p
    | (.error _, _) => .parseFuel
    | (.ok statements, p) =>
      match Resolver.resolve_stmts fuel statements Resolver.new with
      | (.error (.panicked m), r) => .resolvePanicked m p r
      | (.error _, _) => .resolveFuel
      | (.ok _, r) =>
        if r.had_error then .resolveErrored p r
        else
          let st0 := { Interp.new with locals := r.locals }
          match Interp.interpret fuel statements st0 with
          | (result, st) => .interpreted result p r st

end LoxModel

namespace LoxModel

/-- Running `pure` in the state-threading monad. -/
theorem StE.run_pure (a : α) (s : σ) : (pure a : StE σ α) s = (.ok a, s) := rfl

/-- Running a bind whose head computation succeeded. -/
theorem StE.run_bind_ok (x : StE σ α) (s s' : σ) (a : α)
    (h : x s = (.ok a, s')) (f : α → StE σ β) : (x >>= f) s = f a s' := by
  show (match x s with
    | (.ok a, s') => f a s'
    | (.error e, s') => (.error e, s')) = f a s'
  rw [h]

/-- `ainsert` makes the key readable (`HashMap::insert` then `get`). -/
theorem alookup_ainsert [DecidableEq κ] (l : List (κ × α)) (k : κ) (v : α) :
    alookup (ainsert l k v) k = some v := by
  induction l with
  | nil => simp [ainsert, alookup]
  | cons h t ih =>
    obtain ⟨k', v'⟩ := h
    by_cases hk : k' = k
    · simp [ainsert, hk, alookup]
    · simp [ainsert, hk, alookup, ih]

/-- Reading back an in-range arena update. -/
theorem get?_set_self (l : List α) (i : Nat) (x : α) (h : i < l.length) :
    (l.set i x).get? i = some x := by
  induction l generalizing i with
  | nil => simp at h
  | cons a t ih =>
    cases i with
    | zero => simp
    | succ n => simpa using ih n (by simpa using h)

/-- The interpreter state after `visit_set_expr` stores `v` under `key` in
instance `instId` whose prior cell was `inst`. -/
def setInstanceFields (st : Interp) (instId : Nat) (inst : LoxInstanceD)
    (key : String) (v : Object) : Interp :=
  { st with instances :=
      st.instances.set instId { inst with fields := ainsert inst.fields key v } }

/-- The token stream of the claim C1 program
`{ var a = 1;` / `{ var a = 2;` / `print a; } }` (lines 1-3), as the scanner
produces it. -/
def c1Tokens : List Token :=
  [⟨.leftBrace, "\x7b", 1⟩, ⟨.varKw, "var", 1⟩, ⟨.identifier, "a", 1⟩, ⟨.equal, "=", 1⟩,
   ⟨.numberLit (mkRat 1 1), "1", 1⟩, ⟨.semicolon, ";", 1⟩,
   ⟨.leftBrace, "\x7b", 2⟩, ⟨.varKw, "var", 2⟩, ⟨.identifier, "a", 2⟩, ⟨.equal, "=", 2⟩,
   ⟨.numberLit (mkRat 2 1), "2", 2⟩, ⟨.semicolon, ";", 2⟩,
   ⟨.printKw, "print", 3⟩, ⟨.identifier, "a", 3⟩, ⟨.semicolon, ";", 3⟩,
   ⟨.rightBrace, "\x7d", 3⟩, ⟨.rightBrace, "\x7d", 3⟩, ⟨.eof, "", 3⟩]

/-- The parse of `c1Tokens`. -/
def c1Ast : List Stmt :=
  [.block
    [.varS ⟨.identifier, "a", 1⟩ (some (.literal (.number (mkRat 1 1)))),
     .block
       [.varS ⟨.identifier, "a", 2⟩ (some (.literal (.number (mkRat 2 1)))),
        .print (.varE ⟨.identifier, "a", 3⟩)]]]

/-- Claim C1, checked on the program of `c1Tokens`: the parser yields
`c1Ast`; the resolver finishes without diagnostics but records the use of
`a` at line 3 with distance **1** (the outermost scope binding `a`), not 0
(the innermost, which also binds `a`); and evaluation consequently prints
the outer value `1`, not the shadowing `2`. -/
def c1Check : Bool :=
  (match Parser.parse 30 (Parser.new c1Tokens) with
   | (.ok [.block [.varS t1 (some (.literal (.number n1))),
        .block [.varS t2 (some (.literal (.number n2))), .print (.varE t3)]]], p) =>
     t1 = ⟨.identifier, "a", 1⟩ ∧ t2 = ⟨.identifier, "a", 2⟩ ∧ t3 = ⟨.identifier, "a", 3⟩ ∧
       n1 = mkRat 1 1 ∧ n2 = mkRat 2 1 ∧ p.diags = []
   | _ => false) &&
  (match Resolver.resolve_stmts 30 c1Ast Resolver.new with
   | (.ok _, r) => r.had_error = false ∧ r.diags = [] ∧
       r.locals = [(⟨.identifier, "a", 3⟩, 1)]
   | _ => false) &&
  (match Interp.interpret 30 c1Ast
      { Interp.new with locals := [(⟨.identifier, "a", 3⟩, 1)] } with
   | (.ok _, st) => st.output = ["1"]
   | _ => false)

set_option maxRecDepth 10000 in
set_option maxHeartbeats 4000000 in
/-- C1: the claim says `resolve_local` records the index of the first
(innermost) scope containing the name, distance 0 here; the source loop
lacks the early return, so the recorded distance is 1 (the outermost hit)
and the program prints the outer binding. -/
theorem C1_resolve_local_records_outermost_distance : c1Check = true := by decide

/-- The token stream of the claim C2 program
`{ var a = 1; { print a; } print a; }` (one line), as the scanner produces
it. Both uses of `a` carry the identical token (kind, lexeme `a`, line 1):
the side-table key collides. -/
def c2Tokens : List Token :=
  [⟨.leftBrace, "\x7b", 1⟩, ⟨.varKw, "var", 1⟩, ⟨.identifier, "a", 1⟩, ⟨.equal, "=", 1⟩,
   ⟨.numberLit (mkRat 1 1), "1", 1⟩, ⟨.semicolon, ";", 1⟩, ⟨.leftBrace, "\x7b", 1⟩,
   ⟨.printKw, "print", 1⟩, ⟨.identifier, "a", 1⟩, ⟨.semicolon, ";", 1⟩,
   ⟨.rightBrace, "\x7d", 1⟩, ⟨.printKw, "print", 1⟩, ⟨.identifier, "a", 1⟩,
   ⟨.semicolon, ";", 1⟩, ⟨.rightBrace, "\x7d", 1⟩, ⟨.eof, "", 1⟩]

/-- The parse of `c2Tokens`. -/
def c2Ast : List Stmt :=
  [.block
    [.varS ⟨.identifier, "a", 1⟩ (some (.literal (.number (mkRat 1 1)))),
     .block [.print (.varE ⟨.identifier, "a", 1⟩)],
     .print (.varE ⟨.identifier, "a", 1⟩)]]

/-- Claim C2, checked on the program of `c2Tokens`: parsing and resolution
produce no diagnostics, yet the side table maps the shared token of both
`a` use-sites to distance 0 (the second, shallower use overwrote the
first), and evaluating the program reaches `get_at`'s missing-binding
`.expect` panic `Undefined variable 'a'` at the inner use, whose
environment has no `a` at depth 0. -/
def c2Check : Bool :=
  (match Parser.parse 30 (Parser.new c2Tokens) with
   | (.ok [.block [.varS t1 (some (.literal (.number n1))),
        .block [.print (.varE t2)], .print (.varE t3)]], p) =>
     t1 = ⟨.identifier, "a", 1⟩ ∧ t2 = ⟨.identifier, "a", 1⟩ ∧ t3 = ⟨.identifier, "a", 1⟩ ∧
       n1 = mkRat 1 1 ∧ p.diags = []
   | _ => false) &&
  (match Resolver.resolve_stmts 30 c2Ast Resolver.new with
   | (.ok _, r) => r.had_error = false ∧ r.diags = [] ∧
       r.locals = [(⟨.identifier, "a", 1⟩, 0)]
   | _ => false) &&
  (match Interp.interpret 30 c2Ast
      { Interp.new with locals := [(⟨.identifier, "a", 1⟩, 0)] } with
   | (.error (.panicked m), _) => m = "Undefined variable 'a'"
   | _ => false)

set_option maxRecDepth 10000 in
set_option maxHeartbeats 4000000 in
/-- C2: the claim says that on a program resolved without diagnostics,
`get_at(d, name)` never reaches its panic branches; on this diagnostics-free
program it does. -/
theorem C2_resolved_distance_panics_at_runtime : c2Check = true := by decide

/-- The token stream of the claim C3 program `var;`. -/
def c3Tokens : List Token :=
  [⟨.varKw, "var", 1⟩, ⟨.semicolon, ";", 1⟩, ⟨.eof, "", 1⟩]

/-- Claim C3, checked on `var;`: the failed declaration is indeed replaced
by the `Stmt::Null` placeholder and reported (first conjunct, confirming the
claim's first half); but `Lox::run` then does **not** refuse to execute —
`parse` returns `Ok`, no parse-error flag exists, and the resolver is run on
the placeholder list, where it panics at `Stmt::Null`'s `unimplemented!()`
(second conjunct, refuting the claim's second half). -/
def c3Check : Bool :=
  (match Parser.parse 30 (Parser.new c3Tokens) with
   | (.ok [.null], p) => p.diags = [⟨1, .atLexeme ";", "Expected variable name."⟩]
   | _ => false) &&
  (match loxRun 30 "var;" with
   | .resolvePanicked m p _ =>
     m = "not implemented" ∧ p.diags = [⟨1, .atLexeme ";", "Expected variable name."⟩]
   | _ => false)

set_option maxRecDepth 10000 in
set_option maxHeartbeats 4000000 in
/-- C3: the claim says the pipeline refuses to run the resolver and the
evaluator after a parse error; the run on `var;` reaches the resolver (and
panics there). -/
theorem C3_parse_error_does_not_suppress_execution : c3Check = true := by decide

/-- The token stream of the claim C4 program
`class C { init() { } } var c = C(); print c.init();`. -/
def c4Tokens : List Token :=
  [⟨.classKw, "class", 1⟩, ⟨.identifier, "C", 1⟩, ⟨.leftBrace, "\x7b", 1⟩,
   ⟨.identifier, "init", 1⟩, ⟨.leftParen, "(", 1⟩, ⟨.rightParen, ")", 1⟩,
   ⟨.leftBrace, "\x7b", 1⟩, ⟨.rightBrace, "\x7d", 1⟩, ⟨.rightBrace, "\x7d", 1⟩,
   ⟨.varKw, "var", 1⟩, ⟨.identifier, "c", 1⟩, ⟨.equal, "=", 1⟩,
   ⟨.identifier, "C", 1⟩, ⟨.leftParen, "(", 1⟩, ⟨.rightParen, ")", 1⟩,
   ⟨.semicolon, ";", 1⟩, ⟨.printKw, "print", 1⟩, ⟨.identifier, "c", 1⟩,
   ⟨.dot, ".", 1⟩, ⟨.identifier, "init", 1⟩, ⟨.leftParen, "(", 1⟩,
   ⟨.rightParen, ")", 1⟩, ⟨.semicolon, ";", 1⟩, ⟨.eof, "", 1⟩]

/-- First statement of the C4 program: `class C { init() { } }`. -/
def c4s1 : Stmt :=
  .classS ⟨.identifier, "C", 1⟩ none [.function ⟨.identifier, "init", 1⟩ [] []]

/-- Second statement of the C4 program: `var c = C();`. -/
def c4s2 : Stmt :=
  .varS ⟨.identifier, "c", 1⟩
    (some (.call (.varE ⟨.identifier, "C", 1⟩) ⟨.rightParen, ")", 1⟩ []))

/-- Third statement of the C4 program: `print c.init();` — `init` invoked
directly on the instance. -/
def c4s3 : Stmt :=
  .print (.call (.get (.varE ⟨.identifier, "c", 1⟩) ⟨.identifier, "init", 1⟩)
    ⟨.rightParen, ")", 1⟩ [])

/-- The parse of `c4Tokens`. -/
def c4Ast : List Stmt := [c4s1, c4s2, c4s3]

/-- The runtime value of the method `init` of `C`: a `Function::User`
closing over the global environment — the variant has no `is_initializer`
field to set. -/
def c4InitFn : Function := .user ⟨.identifier, "init", 1⟩ [] [] 0

/-- The interpreter state after `c4s1`. -/
def c4St1 : Interp :=
  { envs := [⟨[("clock", .callable (.native 0)), ("C", .classO 0)], none⟩],
    classes := [⟨"C", [("init", c4InitFn)]⟩], instances := [],
    globals := 0, environment := 0, locals := [], output := [] }

/-- The interpreter state after `c4s2` (instance 0 allocated; env 1 is the
`bind` frame holding `this`, env 2 the `init()` call frame). -/
def c4St2 : Interp :=
  { envs := [⟨[("clock", .callable (.native 0)), ("C", .classO 0), ("c", .instance 0)], none⟩,
             ⟨[("this", .instance 0)], some 0⟩, ⟨[], some 1⟩],
    classes := [⟨"C", [("init", c4InitFn)]⟩], instances := [⟨0, []⟩],
    globals := 0, environment := 0, locals := [], output := [] }

/-- The interpreter state after `c4s3`: the direct `c.init()` call printed
`nil` — `Function::call` returned `Null`, not the instance bound to `this`
in env 3 (the fresh `bind` frame of that very call). -/
def c4St3 : Interp :=
  { envs := [⟨[("clock", .callable (.native 0)), ("C", .classO 0), ("c", .instance 0)], none⟩,
             ⟨[("this", .instance 0)], some 0⟩, ⟨[], some 1⟩,
             ⟨[("this", .instance 0)], some 0⟩, ⟨[], some 3⟩],
    classes := [⟨"C", [("init", c4InitFn)]⟩], instances := [⟨0, []⟩],
    globals := 0, environment := 0, locals := [], output := ["nil"] }

/-- A state whose env 0 is a `bind`-shaped closure frame: `this` is bound to
instance 0, exactly the closure an initializer would receive. -/
def c4BoundState : Interp :=
  { envs := [⟨[("this", .instance 0)], none⟩],
    classes := [⟨"C", [("init", c4InitFn)]⟩], instances := [⟨0, []⟩],
    globals := 0, environment := 0, locals := [], output := [] }

/-- `Function::call` on an `init`-shaped user function whose closure binds
`this`: with an empty body and with a bare `return;` body, the call result
is `Null` both times — never the `this` from the closure. -/
def c4CallChecks : Bool :=
  (match Function.callM 3 (.user ⟨.identifier, "init", 1⟩ [] [] 0) [] c4BoundState with
   | (.ok .null, _) => true
   | _ => false) &&
  (match Function.callM 4 (.user ⟨.identifier, "init", 1⟩ []
      [.returnS ⟨.returnKw, "return", 1⟩ none] 0) [] c4BoundState with
   | (.ok .null, _) => true
   | _ => false)

/-- Claim C4, checked on the program of `c4Tokens`: the program parses and
resolves cleanly, and `print c.init();` — `init` invoked directly on the
instance, with a body that falls off the end — prints `nil`: the call
result is `Null`, not the `this` of the closure (`Function::User` carries no
`is_initializer` flag and `Function::call` has no initializer exception). -/
def c4Check : Bool :=
  (match Parser.parse 30 (Parser.new c4Tokens) with
   | (.ok [.classS tc none [.function ti [] []],
        .varS tv (some (.call (.varE tc2) tp1 [])),
        .print (.call (.get (.varE tv2) ti2) tp2 [])], p) =>
     tc = ⟨.identifier, "C", 1⟩ ∧ ti = ⟨.identifier, "init", 1⟩ ∧
       tv = ⟨.identifier, "c", 1⟩ ∧ tc2 = ⟨.identifier, "C", 1⟩ ∧
       tv2 = ⟨.identifier, "c", 1⟩ ∧ ti2 = ⟨.identifier, "init", 1⟩ ∧
       tp1 = ⟨.rightParen, ")", 1⟩ ∧ tp2 = ⟨.rightParen, ")", 1⟩ ∧ p.diags = []
   | _ => false) &&
  (match Resolver.resolve_stmts 30 c4Ast Resolver.new with
   | (.ok _, r) => r.had_error = false ∧ r.diags = [] ∧ r.locals = []
   | _ => false)




set_option maxRecDepth 10000 in
set_option maxHeartbeats 4000000 in
/-- C4: the claim says a call of a user function carrying the
`is_initializer` flag returns the `this` bound in its closure, including on
a direct `init()` call and a bare `return;`. On the code: the program of
`c4Tokens` parses and resolves cleanly (`c4Check`); executing it
statement-by-statement prints `nil` — the direct `c.init()` call returned
`Null` (`c4St3.output`) — and `Function::call` on an `init`-shaped function
whose closure binds `this` returns `Null` both for an empty body and for a
bare `return;` (`c4CallChecks`): `Function::User` has no `is_initializer`
field and `call` has no initializer exception. -/
theorem C4_initializer_call_returns_null_not_this :
    c4Check = true ∧
    Interp.interpret 21 c4Ast Interp.new = (.ok (), c4St3) ∧
    c4St3.output = ["nil"] ∧
    c4CallChecks = true := by
  refine ⟨by decide, ?_, rfl, by decide⟩
  have h1 : Interp.execute 20 c4s1 Interp.new = (.ok (), c4St1) := rfl
  have h2 : Interp.execute 19 c4s2 c4St1 = (.ok (), c4St2) := rfl
  have h3 : Interp.execute 18 c4s3 c4St2 = (.ok (), c4St3) := rfl
  have e1 : Interp.interpret 21 c4Ast =
      (Interp.execute 20 c4s1 >>= fun _ => Interp.executeSeq 20 [c4s2, c4s3]) := rfl
  have e2 : Interp.executeSeq 20 [c4s2, c4s3] =
      (Interp.execute 19 c4s2 >>= fun _ => Interp.executeSeq 19 [c4s3]) := rfl
  have e3 : Interp.executeSeq 19 [c4s3] =
      (Interp.execute 18 c4s3 >>= fun _ => Interp.executeSeq 18 []) := rfl
  calc Interp.interpret 21 c4Ast Interp.new
      = Interp.executeSeq 20 [c4s2, c4s3] c4St1 := by
        rw [e1]; exact StE.run_bind_ok _ _ _ _ h1 _
    _ = Interp.executeSeq 19 [c4s3] c4St2 := by
        rw [e2]; exact StE.run_bind_ok _ _ _ _ h2 _
    _ = Interp.executeSeq 18 [] c4St3 := by
        rw [e3]; exact StE.run_bind_ok _ _ _ _ h3 _
    _ = (.ok (), c4St3) := rfl


/-- Running a bind whose head computation failed. -/
theorem StE.run_bind_err (x : StE σ α) (s s' : σ) (e : Err)
    (h : x s = (.error e, s')) (f : α → StE σ β) : (x >>= f) s = (.error e, s') := by
  show (match x s with
    | (.ok a, s') => f a s'
    | (.error e, s') => (.error e, s')) = (.error e, s')
  rw [h]

/-- The token stream of the claim C5 program
`class A { hi() { } } class B < A { } var b = B(); b.hi();`. -/
def c5Tokens : List Token :=
  [⟨.classKw, "class", 1⟩, ⟨.identifier, "A", 1⟩, ⟨.leftBrace, "\x7b", 1⟩,
   ⟨.identifier, "hi", 1⟩, ⟨.leftParen, "(", 1⟩, ⟨.rightParen, ")", 1⟩,
   ⟨.leftBrace, "\x7b", 1⟩, ⟨.rightBrace, "\x7d", 1⟩, ⟨.rightBrace, "\x7d", 1⟩,
   ⟨.classKw, "class", 1⟩, ⟨.identifier, "B", 1⟩, ⟨.less, "<", 1⟩,
   ⟨.identifier, "A", 1⟩, ⟨.leftBrace, "\x7b", 1⟩, ⟨.rightBrace, "\x7d", 1⟩,
   ⟨.varKw, "var", 1⟩, ⟨.identifier, "b", 1⟩, ⟨.equal, "=", 1⟩,
   ⟨.identifier, "B", 1⟩, ⟨.leftParen, "(", 1⟩, ⟨.rightParen, ")", 1⟩,
   ⟨.semicolon, ";", 1⟩, ⟨.identifier, "b", 1⟩, ⟨.dot, ".", 1⟩,
   ⟨.identifier, "hi", 1⟩, ⟨.leftParen, "(", 1⟩, ⟨.rightParen, ")", 1⟩,
   ⟨.semicolon, ";", 1⟩, ⟨.eof, "", 1⟩]

/-- First statement of the C5 program: `class A { hi() { } }`. -/
def c5s1 : Stmt :=
  .classS ⟨.identifier, "A", 1⟩ none [.function ⟨.identifier, "hi", 1⟩ [] []]

/-- Second statement: `class B < A { }` — the superclass clause is parsed
and resolved, and then ignored by the interpreter. -/
def c5s2 : Stmt :=
  .classS ⟨.identifier, "B", 1⟩ (some (.varE ⟨.identifier, "A", 1⟩)) []

/-- Third statement: `var b = B();`. -/
def c5s3 : Stmt :=
  .varS ⟨.identifier, "b", 1⟩
    (some (.call (.varE ⟨.identifier, "B", 1⟩) ⟨.rightParen, ")", 1⟩ []))

/-- Fourth statement: `b.hi();` — a property access that the claim says
finds the method `hi` defined only on the superclass `A`. -/
def c5s4 : Stmt :=
  .expression (.call (.get (.varE ⟨.identifier, "b", 1⟩) ⟨.identifier, "hi", 1⟩)
    ⟨.rightParen, ")", 1⟩ [])

/-- The parse of `c5Tokens`. -/
def c5Ast : List Stmt := [c5s1, c5s2, c5s3, c5s4]

/-- The interpreter state after `c5s1`. -/
def c5St1 : Interp :=
  { envs := [⟨[("clock", .callable (.native 0)), ("A", .classO 0)], none⟩],
    classes := [⟨"A", [("hi", .user ⟨.identifier, "hi", 1⟩ [] [] 0)]⟩],
    instances := [], globals := 0, environment := 0, locals := [], output := [] }

/-- The interpreter state after `c5s2`: class `B` was built with an empty
`methods` map and **no record of its superclass** (`LoxClass` has no such
field). -/
def c5St2 : Interp :=
  { envs := [⟨[("clock", .callable (.native 0)), ("A", .classO 0), ("B", .classO 1)], none⟩],
    classes := [⟨"A", [("hi", .user ⟨.identifier, "hi", 1⟩ [] [] 0)]⟩, ⟨"B", []⟩],
    instances := [], globals := 0, environment := 0, locals := [], output := [] }

/-- The interpreter state after `c5s3`: `b` holds an instance of `B`. -/
def c5St3 : Interp :=
  { envs := [⟨[("clock", .callable (.native 0)), ("A", .classO 0), ("B", .classO 1),
               ("b", .instance 0)], none⟩],
    classes := [⟨"A", [("hi", .user ⟨.identifier, "hi", 1⟩ [] [] 0)]⟩, ⟨"B", []⟩],
    instances := [⟨1, []⟩], globals := 0, environment := 0, locals := [], output := [] }

/-- Claim C5 on the program of `c5Tokens`: parse and resolution succeed
without diagnostics. -/
def c5Check : Bool :=
  (match Parser.parse 30 (Parser.new c5Tokens) with
   | (.ok [.classS ta none [.function th [] []],
        .classS tb (some (.varE ta2)) [],
        .varS tv (some (.call (.varE tb2) tp1 [])),
        .expression (.call (.get (.varE tv2) th2) tp2 [])], p) =>
     ta = ⟨.identifier, "A", 1⟩ ∧ th = ⟨.identifier, "hi", 1⟩ ∧
       tb = ⟨.identifier, "B", 1⟩ ∧ ta2 = ⟨.identifier, "A", 1⟩ ∧
       tv = ⟨.identifier, "b", 1⟩ ∧ tb2 = ⟨.identifier, "B", 1⟩ ∧
       tv2 = ⟨.identifier, "b", 1⟩ ∧ th2 = ⟨.identifier, "hi", 1⟩ ∧
       tp1 = ⟨.rightParen, ")", 1⟩ ∧ tp2 = ⟨.rightParen, ")", 1⟩ ∧ p.diags = []
   | _ => false) &&
  (match Resolver.resolve_stmts 30 c5Ast Resolver.new with
   | (.ok _, r) => r.had_error = false ∧ r.diags = [] ∧ r.locals = []
   | _ => false)

set_option maxRecDepth 10000 in
set_option maxHeartbeats 4000000 in
/-- C5, as stated, is false on the code: on the program of `c5Tokens`
(parsed and resolved cleanly, `c5Check`), the property access `b.hi()` on
an instance of subclass `B` does **not** find the method `hi` defined only
on superclass `A` — it is the runtime error `Undefined property 'hi'.`
(`find_method` consults only the own `methods` map; `LoxClass` carries no
superclass, as `c5St2` shows). -/
theorem C5_subclass_does_not_find_superclass_method :
    c5Check = true ∧
    Interp.interpret 22 c5Ast Interp.new =
      (.error (.runtime ⟨.identifier, "hi", 1⟩ "Undefined property 'hi'."), c5St3) := by
  refine ⟨by decide, ?_⟩
  have h1 : Interp.execute 21 c5s1 Interp.new = (.ok (), c5St1) := rfl
  have h2 : Interp.execute 20 c5s2 c5St1 = (.ok (), c5St2) := rfl
  have h3 : Interp.execute 19 c5s3 c5St2 = (.ok (), c5St3) := rfl
  have h4 : Interp.execute 18 c5s4 c5St3 =
      (.error (.runtime ⟨.identifier, "hi", 1⟩ "Undefined property 'hi'."), c5St3) := rfl
  have e1 : Interp.interpret 22 c5Ast =
      (Interp.execute 21 c5s1 >>= fun _ => Interp.executeSeq 21 [c5s2, c5s3, c5s4]) := rfl
  have e2 : Interp.executeSeq 21 [c5s2, c5s3, c5s4] =
      (Interp.execute 20 c5s2 >>= fun _ => Interp.executeSeq 20 [c5s3, c5s4]) := rfl
  have e3 : Interp.executeSeq 20 [c5s3, c5s4] =
      (Interp.execute 19 c5s3 >>= fun _ => Interp.executeSeq 19 [c5s4]) := rfl
  have e4 : Interp.executeSeq 19 [c5s4] =
      (Interp.execute 18 c5s4 >>= fun _ => Interp.executeSeq 18 []) := rfl
  calc Interp.interpret 22 c5Ast Interp.new
      = Interp.executeSeq 21 [c5s2, c5s3, c5s4] c5St1 := by
        rw [e1]; exact StE.run_bind_ok _ _ _ _ h1 _
    _ = Interp.executeSeq 20 [c5s3, c5s4] c5St2 := by
        rw [e2]; exact StE.run_bind_ok _ _ _ _ h2 _
    _ = Interp.executeSeq 19 [c5s4] c5St3 := by
        rw [e3]; exact StE.run_bind_ok _ _ _ _ h3 _
    _ = (.error (.runtime ⟨.identifier, "hi", 1⟩ "Undefined property 'hi'."), c5St3) := by
        rw [e4]; exact StE.run_bind_err _ _ _ _ h4 _

/-- C5 amended: `LoxInstance::get` falls back from the fields only to the
instance's own class's `methods` map (`find_method` = `methods.get`); when
both miss the name, the access is the runtime error `Undefined property`,
whatever other classes (in particular a would-be superclass holding the
method) exist in the state: no delegation happens. -/
theorem C5_method_lookup_searches_own_methods_only
    (instId : Nat) (name : Token) (objv : Object) (st : Interp)
    (inst : LoxInstanceD) (cls : LoxClassD)
    (hinst : st.instances.get? instId = some inst)
    (hfield : alookup inst.fields name.lexeme = none)
    (hcls : st.classes.get? inst.class_id = some cls)
    (hmeth : alookup cls.methods name.lexeme = none) :
    LoxInstanceD.get instId name objv st =
      (.error (.runtime name ("Undefined property '" ++ name.lexeme ++ "'.")), st) := by
  have hget : (StE.get : IM Interp) st = (.ok st, st) := rfl
  have hinst2 : st.instances[instId]? = some inst := by simpa using hinst
  have hcls2 : st.classes[inst.class_id]? = some cls := by simpa using hcls
  simp [LoxInstanceD.get, StE.run_bind_ok _ _ _ _ hget, hinst2, hfield, hcls2, hmeth,
    LoxClassD.find_method, StE.throw]

/-- A state holding a class `A` owning method `hi`, a class `B` with an
empty map, and an instance of `B`. -/
def c5WitnessState : Interp :=
  { envs := [⟨[], none⟩],
    classes := [⟨"A", [("hi", .user ⟨.identifier, "hi", 1⟩ [] [] 0)]⟩, ⟨"B", []⟩],
    instances := [⟨1, []⟩],
    globals := 0, environment := 0, locals := [], output := [] }

/-- Witness for `C5_method_lookup_searches_own_methods_only`: in
`c5WitnessState`, looking `hi` up on the `B` instance errors although class
`A` holds `hi`. -/
theorem C5_method_lookup_searches_own_methods_only_witness :
    LoxInstanceD.get 0 ⟨.identifier, "hi", 1⟩ (.instance 0) c5WitnessState =
      (.error (.runtime ⟨.identifier, "hi", 1⟩ "Undefined property 'hi'."),
       c5WitnessState) :=
  C5_method_lookup_searches_own_methods_only 0 ⟨.identifier, "hi", 1⟩ (.instance 0)
    c5WitnessState ⟨1, []⟩ ⟨"B", []⟩ rfl rfl rfl rfl

/-- Claim C6 on the input `"abc` (an unterminated string literal):
`scan_tokens` reports `Unterminated string` but then still runs
`self.advance()` for the closing quote, whose
`.expect("there is a next char")` panics — scanning does not continue and
no `Eof`-terminated token list is returned. -/
def c6Check : Bool :=
  match Scanner.scan_tokens 10 (Scanner.new "\"abc") with
  | (.error (.panicked m), s) =>
    m = "there is a next char" ∧ s.diags = [⟨1, .plain, "Unterminated string"⟩]
  | _ => false

set_option maxRecDepth 10000 in
set_option maxHeartbeats 4000000 in
/-- C6: the claim says scanning never panics and continues past an
unterminated string to an `Eof`-terminated list; on `"abc` the scanner
reports the error and then panics in `advance`. -/
theorem C6_unterminated_string_panics : c6Check = true := by decide

/-- The token stream of the claim C7 program `a and b;` (the scanner maps
the lexeme `and` to `TokenType::And` through the keyword table). -/
def c7Tokens : List Token :=
  [⟨.identifier, "a", 1⟩, ⟨.andKw, "and", 1⟩, ⟨.identifier, "b", 1⟩,
   ⟨.semicolon, ";", 1⟩, ⟨.eof, "", 1⟩]

/-- Claim C7 on `a and b;`: the keyword table does produce the `And` token
(first conjunct), but `expression` parses only `Variable a` and leaves
`current` at 1 — the `and` token is **not** consumed and no `Logical` node
is built (`logic_and` loops on `TokenType::Or`); parsing the statement then
fails at `and` with `Expected ; after value.` and yields the `Stmt::Null`
placeholder. -/
def c7Check : Bool :=
  (alookup KEYWORDS "and" = some TokenType.andKw) &&
  (match Parser.expression 20 (Parser.new c7Tokens) with
   | (.ok (.varE t), p) => t = ⟨.identifier, "a", 1⟩ ∧ p.current = 1 ∧ p.diags = []
   | _ => false) &&
  (match Parser.parse 20 (Parser.new c7Tokens) with
   | (.ok [.null], p) => p.diags = [⟨1, .atLexeme "and", "Expected ; after value."⟩]
   | _ => false)

set_option maxRecDepth 10000 in
set_option maxHeartbeats 4000000 in
/-- C7: the claim says `logic_and` loops on the `and` token and `a and b`
yields a `Logical` node with the `And` operator; the code loops on `Or` in
both `logic_or` and `logic_and`, so `a and b;` is a syntax error and no
`Logical` node is produced. -/
theorem C7_logic_and_loops_on_or_token : c7Check = true := by decide

/-- C8 (confirmed): `visit_logical_expr` first evaluates the left operand
(the hypothesis); for `or` it returns a truthy left value as-is without
touching the right operand, otherwise its result is exactly the evaluation
of the right operand (value returned unchanged, not coerced); for `and`
symmetrically with falsy in place of truthy. -/
theorem C8_logical_evaluates_left_then_short_circuits
    (fuel : Nat) (left right : Expr) (operator : Token)
    (st st1 : Interp) (l : Object)
    (hleft : Interp.evaluate fuel left st = (.ok l, st1)) :
    ((operator.token_type = .orKw ∧ is_truthy l = true) →
        Interp.visit_logical_expr (fuel + 1) left operator right st = (.ok l, st1)) ∧
    ((operator.token_type = .orKw ∧ is_truthy l = false) →
        Interp.visit_logical_expr (fuel + 1) left operator right st =
          Interp.evaluate fuel right st1) ∧
    ((operator.token_type = .andKw ∧ is_truthy l = false) →
        Interp.visit_logical_expr (fuel + 1) left operator right st = (.ok l, st1)) ∧
    ((operator.token_type = .andKw ∧ is_truthy l = true) →
        Interp.visit_logical_expr (fuel + 1) left operator right st =
          Interp.evaluate fuel right st1) := by
  refine ⟨?_, ?_, ?_, ?_⟩ <;> rintro ⟨hop, htr⟩ <;>
    simp only [Interp.visit_logical_expr] <;>
    simp [StE.run_bind_ok _ _ _ _ hleft, hop, htr, StE.run_pure]

/-- Witness for `C8_logical_evaluates_left_then_short_circuits` at
`true or nil` from the fresh interpreter state. -/
theorem C8_logical_evaluates_left_then_short_circuits_witness :
    Interp.evaluate 1 (.literal (.boolean true)) Interp.new =
      (.ok (.boolean true), Interp.new) ∧
    Interp.visit_logical_expr 2 (.literal (.boolean true)) ⟨.orKw, "or", 1⟩
      (.literal .null) Interp.new = (.ok (.boolean true), Interp.new) := by
  have h : Interp.evaluate 1 (.literal (.boolean true)) Interp.new =
      (.ok (.boolean true), Interp.new) := rfl
  exact ⟨h, (C8_logical_evaluates_left_then_short_circuits 1 _ _ _ _ _ _ h).1 ⟨rfl, rfl⟩⟩

/-- C9 (confirmed): whenever `execute_block` returns through a `Result` —
`Ok`, a runtime error, or the `Return` signal — the interpreter's
current-environment slot afterwards equals its value before the call. -/
theorem C9_execute_block_restores_environment
    (fuel : Nat) (statements : List Stmt) (environment : Nat)
    (st st' : Interp) (r : Except Err Unit)
    (h : Interp.execute_block fuel statements environment st = (r, st'))
    (hr : r = .ok () ∨ (∃ t m, r = .error (.runtime t m)) ∨ (∃ v, r = .error (.ret v))) :
    st'.environment = st.environment := by
  cases fuel with
  | zero =>
    simp only [Interp.execute_block, StE.throw, Prod.mk.injEq] at h
    rcases h with ⟨h1, h2⟩
    rcases hr with h3 | ⟨t, m, h3⟩ | ⟨v, h3⟩ <;> rw [← h1] at h3 <;> simp at h3
  | succ fuel =>
    simp only [Interp.execute_block] at h
    rcases hseq : Interp.executeSeq fuel statements { st with environment := environment }
      with ⟨r0, st0⟩
    rw [hseq] at h
    cases r0 with
    | ok a =>
      simp only [Prod.mk.injEq] at h
      rcases h with ⟨h1, h2⟩
      rw [← h2]
    | error e =>
      cases e with
      | parse =>
        simp only [Err.isUnwind, Bool.false_eq_true, if_false, Prod.mk.injEq] at h
        rcases h with ⟨h1, h2⟩
        rw [← h2]
      | ret v =>
        simp only [Err.isUnwind, Bool.false_eq_true, if_false, Prod.mk.injEq] at h
        rcases h with ⟨h1, h2⟩
        rw [← h2]
      | runtime t m =>
        simp only [Err.isUnwind, Bool.false_eq_true, if_false, Prod.mk.injEq] at h
        rcases h with ⟨h1, h2⟩
        rw [← h2]
      | panicked msg =>
        simp only [Err.isUnwind, if_true, Prod.mk.injEq] at h
        rcases h with ⟨h1, h2⟩
        rcases hr with h3 | ⟨t, m, h3⟩ | ⟨v, h3⟩ <;> rw [← h1] at h3 <;> simp at h3
      | fuel =>
        simp only [Err.isUnwind, if_true, Prod.mk.injEq] at h
        rcases h with ⟨h1, h2⟩
        rcases hr with h3 | ⟨t, m, h3⟩ | ⟨v, h3⟩ <;> rw [← h1] at h3 <;> simp at h3

/-- Witness for `C9_execute_block_restores_environment`: an empty block run
with slot 7 active and child frame 3 ends with slot 7 again. -/
theorem C9_execute_block_restores_environment_witness :
    Interp.execute_block 2 [] 3 { Interp.new with environment := 7 } =
      (.ok (), { Interp.new with environment := 7 }) ∧
    ({ Interp.new with environment := 7 } : Interp).environment = 7 := by
  have h : Interp.execute_block 2 [] 3 { Interp.new with environment := 7 } =
      (.ok (), { Interp.new with environment := 7 }) := rfl
  exact ⟨h, (C9_execute_block_restores_environment 2 [] 3 _ _ _ h (.inl rfl)).trans rfl⟩

/-- C10 (confirmed): when the object of a `Set` expression evaluates to an
instance and the value evaluates to `v`, `visit_set_expr` stores `v` into
that instance's fields (readable back under the property name) and returns
the **instance object**, not the assigned value. -/
theorem C10_set_expr_stores_value_and_returns_instance
    (fuel : Nat) (object value : Expr) (property_name : Token)
    (st st1 st2 : Interp) (instId : Nat) (v : Object) (inst : LoxInstanceD)
    (hobj : Interp.evaluate fuel object st = (.ok (.instance instId), st1))
    (hval : Interp.evaluate fuel value st1 = (.ok v, st2))
    (hinst : st2.instances.get? instId = some inst) :
    Interp.visit_set_expr (fuel + 1) object property_name value st =
      (.ok (.instance instId), setInstanceFields st2 instId inst property_name.lexeme v) ∧
    alookup ((((setInstanceFields st2 instId inst property_name.lexeme v).instances.get?
      instId).getD ⟨0, []⟩).fields) property_name.lexeme = some v := by
  have hlt : instId < st2.instances.length := by
    by_contra hcon
    rw [List.get?_eq_none.2 (Nat.le_of_not_lt hcon)] at hinst
    cases hinst
  have hset : LoxInstanceD.set instId property_name v st2 =
      (.ok (), setInstanceFields st2 instId inst property_name.lexeme v) := by
    simp only [LoxInstanceD.set, StE.modify]
    rw [hinst]
    rfl
  constructor
  · simp [Interp.visit_set_expr, StE.run_bind_ok _ _ _ _ hobj,
      StE.run_bind_ok _ _ _ _ hval, StE.run_bind_ok _ _ _ _ hset, StE.run_pure]
  · simp only [setInstanceFields]
    rw [get?_set_self _ _ _ hlt]
    simp [alookup_ainsert]

/-- A state with one instance and a global `o` bound to it. -/
def c10WitnessState : Interp :=
  { envs := [⟨[("clock", .callable (.native 0)), ("o", .instance 0)], none⟩],
    classes := [⟨"K", []⟩], instances := [⟨0, []⟩],
    globals := 0, environment := 0, locals := [], output := [] }

/-- Witness for `C10_set_expr_stores_value_and_returns_instance`:
`o.f = nil` in `c10WitnessState` stores `nil` in the instance and the
expression's value is the instance, not `nil`. -/
theorem C10_set_expr_stores_value_and_returns_instance_witness :
    Interp.visit_set_expr 2 (.varE ⟨.identifier, "o", 1⟩) ⟨.identifier, "f", 1⟩
      (.literal .null) c10WitnessState =
      (.ok (.instance 0), setInstanceFields c10WitnessState 0 ⟨0, []⟩ "f" .null) ∧
    alookup ((((setInstanceFields c10WitnessState 0 ⟨0, []⟩ "f" .null).instances.get?
      0).getD ⟨0, []⟩).fields) "f" = some .null :=
  C10_set_expr_stores_value_and_returns_instance 1 (.varE ⟨.identifier, "o", 1⟩)
    (.literal .null) ⟨.identifier, "f", 1⟩ c10WitnessState c10WitnessState
    c10WitnessState 0 .null ⟨0, []⟩ rfl rfl rfl

end LoxModel
